import Mathlib

/-!
Formal model of the response-validation and coordinate-sanitization layer of the
hyperlocal navigation assistant.

The layer under study consists of:
- the type guards in `src/unnamed/part_000` (`isRouteCoordinate`, `isRouteStep`,
  `isLandmark`, `isTrafficSegment`, `isItineraryLocation`, `isItineraryRoute`);
- the strict sanitization helpers in `src/unnamed/part_011` (`validateNumber`,
  `validateCoord`) and the `planRoute` / `planDayItinerary` pipelines there;
- the guard-filter `planRoute` / `planDayItinerary` pipelines in `src/unnamed/part_003`;
- the map-display validator `isValidCoord` in `src/unnamed/part_001`.

Modelling conventions:
- Parsed JSON values (and the record values the pipelines build from them) are the
  inductive `JsonVal`.  JavaScript `undefined` is modelled as `Option.none` at every
  place a value can be undefined (a missing object field, an optional-chaining miss);
  `NaN` is the explicit constructor `JsonVal.nan`, since the part_003 itinerary
  pipeline stores `Number(undefined) = NaN` inside records that are then validated.
- JavaScript finite double values are modelled as rationals.  The numeric operations
  the source performs on them (comparison with 90/180/0, `Math.abs`, `isNaN`) are
  exact on doubles, so the rational model is faithful for them.  The infinities are
  not modelled: every validator in the source rejects them through its bounds check
  or its `isNaN` check exactly as it rejects a conversion failure, so they are
  observationally identical to `none` here.
- Property access `v.k` on a parsed value is total except on `null`, where
  JavaScript throws.  The total read used after a short-circuit guard is `getF`;
  the throwing read used when modelling evaluation order is `getFieldT` (returning
  `Except Unit`).  Optional chaining `v?.k` is `chainF`.
- Strings are modelled as `List Char` where character-level work happens (the fence
  extraction) and as `String` for object keys and string fields.
-/

namespace Navi

/-- A parsed JSON value, extended with `nan` because the part_003 itinerary pipeline
    injects `Number(undefined) = NaN` into candidate records before validating them.
    Object fields list the object's own enumerable properties (string keys are unique
    after `JSON.parse` resolves duplicates). -/
inductive JsonVal : Type where
  | null : JsonVal
  | bool : Bool → JsonVal
  | num : ℚ → JsonVal
  | nan : JsonVal
  | str : String → JsonVal
  | arr : List JsonVal → JsonVal
  | obj : List (String × JsonVal) → JsonVal

/-- JavaScript truthiness of a `JsonVal`: `null`, `false`, `0`, `NaN` and the empty
    string are falsy; every array and object is truthy. -/
def truthy : JsonVal → Bool
  | .null => false
  | .bool b => b
  | .num q => decide (q ≠ 0)
  | .nan => false
  | .str s => decide (s ≠ "")
  | .arr _ => true
  | .obj _ => true

/-- Property lookup in an object's field list. -/
def getProp : List (String × JsonVal) → String → Option JsonVal
  | [], _ => none
  | (k, v) :: rest, key => if k = key then some v else getProp rest key

/-- Total property access `v.k` (defined result assuming no exception): fields of an
    object, `undefined` (`none`) on every other value.  Reading a property of `null`
    throws in JavaScript; this total version is only used by the source after a
    truthiness check has ruled `null` out, or under optional chaining. -/
def getF : JsonVal → String → Option JsonVal
  | .obj fs, k => getProp fs k
  | _, _ => none

/-- Property access `v.k` with JavaScript exception behaviour: a `TypeError`
    (modelled as `Except.error ()`) when `v` is `null`, otherwise the total read. -/
def getFieldT : JsonVal → String → Except Unit (Option JsonVal)
  | .null, _ => .error ()
  | v, k => .ok (getF v k)

/-- Optional chaining `x?.k` where `x` itself may be `undefined`: never throws,
    `undefined` when the base is `null`/`undefined` or has no such field. -/
def chainF : Option JsonVal → String → Option JsonVal
  | some v, k => getF v k
  | none, _ => none

/-- Whitespace for JavaScript string trimming and the `\s` regex class
    (the ASCII part plus NBSP and the BOM; other Unicode spaces do not occur in the
    inputs this model is used on). -/
def isWs (c : Char) : Bool :=
  c = ' ' || c = '\t' || c = '\n' || c = '\r' || c = '\x0b' || c = '\x0c' ||
    c = ' ' || c = '﻿'

/-- `String.prototype.trim` on a character list. -/
def trimWs (cs : List Char) : List Char :=
  ((cs.dropWhile isWs).reverse.dropWhile isWs).reverse

/-- Decimal digit test. -/
def isDigitC (c : Char) : Bool := decide ('0' ≤ c) && decide (c ≤ '9')

/-- Numeric value of a digit list, most significant first. -/
def natOfDigits (ds : List Char) : ℕ :=
  ds.foldl (fun a c => 10 * a + (c.toNat - '0'.toNat)) 0

/-- Mantissa of the decimal literal `ip.fp`, as a rational. -/
def decMantissa (ip fp : List Char) : ℚ :=
  (natOfDigits ip : ℚ) + (natOfDigits fp : ℚ) / ((10 : ℚ) ^ fp.length)

/-- Parse the exponent-free part of a JavaScript decimal numeric literal, returning
    its value and the unconsumed characters; fails when no digit is present. -/
def decBody (cs : List Char) : Option (ℚ × List Char) :=
  let ip := cs.takeWhile isDigitC
  let r1 := cs.dropWhile isDigitC
  match r1 with
  | '.' :: r2 =>
      let fp := r2.takeWhile isDigitC
      let r3 := r2.dropWhile isDigitC
      if ip.isEmpty && fp.isEmpty then none else some (decMantissa ip fp, r3)
  | _ => if ip.isEmpty then none else some (decMantissa ip [], r1)

/-- Parse the optional exponent suffix `e`/`E` sign digits; a bare `e` with no
    digits fails the whole literal, as in JavaScript. -/
def decExp (cs : List Char) : Option (ℤ × List Char) :=
  match cs with
  | 'e' :: r | 'E' :: r =>
      let signed : Bool × List Char :=
        match r with
        | '-' :: r2 => (true, r2)
        | '+' :: r2 => (false, r2)
        | _ => (false, r)
      let ds := signed.2.takeWhile isDigitC
      let rest := signed.2.dropWhile isDigitC
      if ds.isEmpty then none
      else some (if signed.1 then -(natOfDigits ds : ℤ) else (natOfDigits ds : ℤ), rest)
  | _ => some (0, cs)

/-- Scale a rational by a signed power of ten. -/
def scalePow10 (m : ℚ) (e : ℤ) : ℚ :=
  if e ≥ 0 then m * (10 : ℚ) ^ e.toNat else m / (10 : ℚ) ^ (-e).toNat

/-- JavaScript `Number(string)` restricted to decimal literals: the input is
    trimmed, the empty string is `0`, otherwise an optionally signed decimal with
    optional fraction and exponent; anything else is `NaN` (`none`).  The
    `Infinity` forms and the hex/octal/binary literal forms are out of the model
    (no claim exercises them; the infinities are rejected by every caller's bounds
    check exactly as `none` is). -/
def jsStrToNumber (s : String) : Option ℚ :=
  let cs := trimWs s.toList
  match cs with
  | [] => some 0
  | _ =>
      let signed : Bool × List Char :=
        match cs with
        | '-' :: r => (true, r)
        | '+' :: r => (false, r)
        | _ => (false, cs)
      match decBody signed.2 with
      | none => none
      | some (m, r1) =>
          match decExp r1 with
          | none => none
          | some (e, r2) =>
              if r2.isEmpty then
                some (if signed.1 then -scalePow10 m e else scalePow10 m e)
              else none

/-- JavaScript `Number(v)` on a parsed value: `null` is `0`, booleans are `0`/`1`,
    `NaN` stays `NaN` (`none`), strings go through the decimal grammar, the empty
    array is `0` (via `String([]) = ""`), plain objects are `NaN`.  A non-empty
    array coerces in JavaScript through its comma-joined string; that exotic path
    is modelled as `NaN` (no claim and no call site in the the modelled code feeds
    a non-empty array to a numeric field). -/
def toNumber : JsonVal → Option ℚ
  | .null => some 0
  | .bool b => some (if b then 1 else 0)
  | .num q => some q
  | .nan => none
  | .str s => jsStrToNumber s
  | .arr [] => some 0
  | .arr (_ :: _) => none
  | .obj _ => none

/-- `Number(v)` where `v` may also be `undefined` (`Number(undefined) = NaN`). -/
def jsToNumber : Option JsonVal → Option ℚ
  | none => none
  | some v => toNumber v

/-! ### Strict sanitization helpers (src/unnamed/part_011 lines 19-34,
    duplicated in src/services/geminiService.ts lines 19-31) -/

/-- `validateNumber(val)`: coerce with `Number` and map `NaN` to `null`.  Both the
    `NaN` result and the `null` result are `none` here (the source only ever tests
    the result against `null`). -/
def validateNumber (val : Option JsonVal) : Option ℚ :=
  jsToNumber val

/-- `validateCoord(lat, lng)` from part_011: coerce both arguments, fail on a `NaN`,
    then apply the bounds check `abs(lat) > 90 || abs(lng) > 180`.  There is no
    zero check: `(0, 0)` passes. -/
def validateCoord (lat lng : Option JsonVal) : Option (ℚ × ℚ) :=
  match validateNumber lat, validateNumber lng with
  | some vLat, some vLng =>
      if |vLat| > 90 || |vLng| > 180 then none else some (vLat, vLng)
  | _, _ => none

/-- `isValidCoord(lat, lng)` from src/unnamed/part_001 lines 47-51 (the map
    component): coerce both arguments with `Number` and require
    `!isNaN && nLat !== 0 && nLng !== 0 && abs(nLat) <= 90 && abs(nLng) <= 180`.
    Note that it rejects every pair in which either coordinate is exactly zero. -/
def isValidCoord (lat lng : Option JsonVal) : Bool :=
  match jsToNumber lat, jsToNumber lng with
  | some nLat, some nLng =>
      decide (nLat ≠ 0) && decide (nLng ≠ 0) &&
        decide (|nLat| ≤ 90) && decide (|nLng| ≤ 180)
  | _, _ => false

/-! ### Type guards (src/unnamed/part_000 lines 13-73)

The helper predicates receive the result of a property read, which may be
`undefined` (`none`).  `isNumber` is `typeof val === 'number' && !isNaN(val)`:
true exactly on non-`NaN` numbers. -/

/-- `isNumber(val)` on a possibly-undefined value. -/
def isNumber : Option JsonVal → Bool
  | some (.num _) => true
  | _ => false

/-- `isString(val)` on a possibly-undefined value. -/
def isString : Option JsonVal → Bool
  | some (.str _) => true
  | _ => false

/-- `isArray(val)` on a possibly-undefined value. -/
def isArray : Option JsonVal → Bool
  | some (.arr _) => true
  | _ => false

/-- `isRouteCoordinate(data)`: `data && isNumber(data.lat) && isNumber(data.lng)`. -/
def isRouteCoordinate (data : JsonVal) : Bool :=
  truthy data && isNumber (getF data "lat") && isNumber (getF data "lng")

/-- `isRouteCoordinate` applied to a possibly-undefined value (as in
    `isRouteCoordinate(data.position)`): `undefined` is falsy, so `false`. -/
def isRouteCoordinateO : Option JsonVal → Bool
  | some v => isRouteCoordinate v
  | none => false

/-- `data.path.every(isRouteCoordinate)` preceded by its `isArray` check. -/
def pathEvery : Option JsonVal → Bool
  | some (.arr xs) => xs.all isRouteCoordinate
  | _ => false

/-- `isRouteStep(data)`: truthy `data`, text `description`, and an array `path`
    whose every element is a route coordinate.  An empty `path` passes `every`
    vacuously, so a step with an empty path is accepted. -/
def isRouteStep (data : JsonVal) : Bool :=
  truthy data && isString (getF data "description") &&
    isArray (getF data "path") && pathEvery (getF data "path")

/-- `isLandmark(data)`: truthy `data`, text `name`, and a `position` satisfying
    `isRouteCoordinate`. -/
def isLandmark (data : JsonVal) : Bool :=
  truthy data && isString (getF data "name") &&
    isRouteCoordinateO (getF data "position")

/-- `['light', 'moderate', 'heavy'].includes(data.level)` (case-sensitive; a
    non-string is simply not a member). -/
def levelIncluded : Option JsonVal → Bool
  | some (.str s) => s = "light" || s = "moderate" || s = "heavy"
  | _ => false

/-- `isTrafficSegment(data)`: truthy `data`, an array `path` of route coordinates,
    a string `level` that is one of `light`/`moderate`/`heavy`, and a text
    `description`. -/
def isTrafficSegment (data : JsonVal) : Bool :=
  truthy data && isArray (getF data "path") && pathEvery (getF data "path") &&
    isString (getF data "level") && levelIncluded (getF data "level") &&
    isString (getF data "description")

/-- `data.time === undefined || p(data.time)` for an optional field. -/
def undefOr (p : Option JsonVal → Bool) : Option JsonVal → Bool
  | none => true
  | some v => p (some v)

/-- `isItineraryLocation(data)`: text `name`/`description`, non-`NaN` numeric
    `lat`/`lng`, and `time`/`duration`/`sequence` each absent or of its expected
    type. -/
def isItineraryLocation (data : JsonVal) : Bool :=
  truthy data && isString (getF data "name") && isString (getF data "description") &&
    isNumber (getF data "lat") && isNumber (getF data "lng") &&
    undefOr isString (getF data "time") && undefOr isString (getF data "duration") &&
    undefOr isNumber (getF data "sequence")

/-- `isItineraryRoute(data)`: text `name`, `start` and `end` route coordinates, and
    optional `transport`/`travelTime` text fields. -/
def isItineraryRoute (data : JsonVal) : Bool :=
  truthy data && isString (getF data "name") &&
    isRouteCoordinateO (getF data "start") && isRouteCoordinateO (getF data "end") &&
    undefOr isString (getF data "transport") &&
    undefOr isString (getF data "travelTime")

/-! ### Guard evaluation with JavaScript exception semantics

Each `...E` function evaluates the corresponding guard exactly as JavaScript does,
operand by operand in source order, with every property read going through the
throwing `getFieldT`.  Proving `guardE v = .ok (guard v)` for every `v` shows the
guard never throws and yields the definite boolean of the total model. -/

/-- Monadic `Array.prototype.every`, short-circuiting on the first `false`. -/
def allME (p : JsonVal → Except Unit Bool) : List JsonVal → Except Unit Bool
  | [] => pure true
  | x :: xs => do
      let b ← p x
      if b then allME p xs else pure false

/-- `isRouteCoordinate` with evaluation-order exception semantics. -/
def isRouteCoordinateE (data : JsonVal) : Except Unit Bool :=
  if truthy data then do
    let lat ← getFieldT data "lat"
    if isNumber lat then do
      let lng ← getFieldT data "lng"
      pure (isNumber lng)
    else pure false
  else pure false

/-- `isRouteCoordinate(x)` on a possibly-undefined argument (`undefined` is falsy,
    so the body short-circuits to `false` without reading a property). -/
def isRouteCoordinateOE : Option JsonVal → Except Unit Bool
  | some v => isRouteCoordinateE v
  | none => pure false

/-- `isRouteStep` with evaluation-order exception semantics. -/
def isRouteStepE (data : JsonVal) : Except Unit Bool :=
  if truthy data then do
    let d ← getFieldT data "description"
    if isString d then do
      let p1 ← getFieldT data "path"
      if isArray p1 then do
        let p2 ← getFieldT data "path"
        match p2 with
        | some (.arr xs) => allME isRouteCoordinateE xs
        | _ => pure false
      else pure false
    else pure false
  else pure false

/-- `isLandmark` with evaluation-order exception semantics. -/
def isLandmarkE (data : JsonVal) : Except Unit Bool :=
  if truthy data then do
    let n ← getFieldT data "name"
    if isString n then do
      let pos ← getFieldT data "position"
      isRouteCoordinateOE pos
    else pure false
  else pure false

/-- `isTrafficSegment` with evaluation-order exception semantics. -/
def isTrafficSegmentE (data : JsonVal) : Except Unit Bool :=
  if truthy data then do
    let p1 ← getFieldT data "path"
    if isArray p1 then do
      let p2 ← getFieldT data "path"
      let every ← match p2 with
        | some (.arr xs) => allME isRouteCoordinateE xs
        | _ => pure false
      if every then do
        let lv ← getFieldT data "level"
        if isString lv then
          if levelIncluded lv then do
            let d ← getFieldT data "description"
            pure (isString d)
          else pure false
        else pure false
      else pure false
    else pure false
  else pure false

/-- `isItineraryLocation` with evaluation-order exception semantics. -/
def isItineraryLocationE (data : JsonVal) : Except Unit Bool :=
  if truthy data then do
    let n ← getFieldT data "name"
    if isString n then do
      let d ← getFieldT data "description"
      if isString d then do
        let la ← getFieldT data "lat"
        if isNumber la then do
          let ln ← getFieldT data "lng"
          if isNumber ln then do
            let t ← getFieldT data "time"
            if undefOr isString t then do
              let du ← getFieldT data "duration"
              if undefOr isString du then do
                let sq ← getFieldT data "sequence"
                pure (undefOr isNumber sq)
              else pure false
            else pure false
          else pure false
        else pure false
      else pure false
    else pure false
  else pure false

/-- `isItineraryRoute` with evaluation-order exception semantics. -/
def isItineraryRouteE (data : JsonVal) : Except Unit Bool :=
  if truthy data then do
    let n ← getFieldT data "name"
    if isString n then do
      let st ← getFieldT data "start"
      let okStart ← isRouteCoordinateOE st
      if okStart then do
        let en ← getFieldT data "end"
        let okEnd ← isRouteCoordinateOE en
        if okEnd then do
          let tr ← getFieldT data "transport"
          if undefOr isString tr then do
            let tt ← getFieldT data "travelTime"
            pure (undefOr isString tt)
          else pure false
        else pure false
      else pure false
    else pure false
  else pure false

/-- A truthy value is not `null`, so its properties can be read without throwing. -/
theorem truthy_ne_null {v : JsonVal} (h : truthy v = true) : v ≠ JsonVal.null := by
  cases v <;> simp_all [truthy]

/-- Reading a property of a non-`null` value never throws. -/
theorem getFieldT_eq (v : JsonVal) (k : String) (h : v ≠ JsonVal.null) :
    getFieldT v k = .ok (getF v k) := by
  cases v <;> simp_all [getFieldT]

/-- `pure` in the `Except Unit` monad is `Except.ok`. -/
theorem exPure {α : Type} (a : α) : (pure a : Except Unit α) = .ok a := rfl

/-- Binding a successful `Except Unit` computation applies the continuation. -/
theorem exBind {α β : Type} (a : α) (f : α → Except Unit β) :
    (Except.ok a >>= f) = f a := rfl

/-- Evaluating `isRouteCoordinate` never throws. -/
theorem isRouteCoordinateE_ok (v : JsonVal) :
    isRouteCoordinateE v = .ok (isRouteCoordinate v) := by
  by_cases h : truthy v
  · simp only [isRouteCoordinateE, isRouteCoordinate, h,
      getFieldT_eq _ _ (truthy_ne_null h), exBind, exPure, if_true, Bool.true_and]
    cases isNumber (getF v "lat") <;> simp
  · simp [isRouteCoordinateE, isRouteCoordinate, h, Bool.of_not_eq_true h, exPure]

/-- Evaluating `isRouteCoordinate` on a possibly-undefined argument never throws. -/
theorem isRouteCoordinateOE_ok (v : Option JsonVal) :
    isRouteCoordinateOE v = .ok (isRouteCoordinateO v) := by
  cases v <;>
    simp [isRouteCoordinateOE, isRouteCoordinateO, isRouteCoordinateE_ok, exPure]

/-- Monadic `every` with a non-throwing body never throws. -/
theorem allME_ok (p : JsonVal → Except Unit Bool) (q : JsonVal → Bool)
    (hp : ∀ x, p x = .ok (q x)) (xs : List JsonVal) :
    allME p xs = .ok (xs.all q) := by
  induction xs with
  | nil => simp [allME, exPure]
  | cons x xs ih =>
      simp only [allME, hp x, List.all_cons, exBind]
      cases hq : q x <;> simp [ih, hq, exPure]

/-- Evaluating `isRouteStep` never throws. -/
theorem isRouteStepE_ok (v : JsonVal) :
    isRouteStepE v = .ok (isRouteStep v) := by
  by_cases h : truthy v
  · simp only [isRouteStepE, isRouteStep, h, getFieldT_eq _ _ (truthy_ne_null h),
      exBind, exPure, if_true, Bool.true_and]
    cases hd : isString (getF v "description")
    · simp [hd, exPure]
    · simp only [hd, if_true, Bool.true_and, exPure]
      cases hp : getF v "path" with
      | none => simp [isArray, exPure]
      | some w =>
          cases w <;>
            simp [isArray, pathEvery, exPure, allME_ok _ _ isRouteCoordinateE_ok]
  · simp [isRouteStepE, isRouteStep, h, Bool.of_not_eq_true h, exPure]

/-- Evaluating `isLandmark` never throws. -/
theorem isLandmarkE_ok (v : JsonVal) :
    isLandmarkE v = .ok (isLandmark v) := by
  by_cases h : truthy v
  · simp only [isLandmarkE, isLandmark, h, getFieldT_eq _ _ (truthy_ne_null h),
      exBind, exPure, if_true, Bool.true_and]
    cases hn : isString (getF v "name") <;>
      simp [hn, exPure, isRouteCoordinateOE_ok]
  · simp [isLandmarkE, isLandmark, h, Bool.of_not_eq_true h, exPure]

/-- Evaluating `isTrafficSegment` never throws. -/
theorem isTrafficSegmentE_ok (v : JsonVal) :
    isTrafficSegmentE v = .ok (isTrafficSegment v) := by
  by_cases h : truthy v
  · simp only [isTrafficSegmentE, isTrafficSegment, h,
      getFieldT_eq _ _ (truthy_ne_null h), exBind, exPure, if_true, Bool.true_and]
    cases hp : getF v "path" with
    | none => simp [isArray, exPure]
    | some w =>
        cases w with
        | arr xs =>
          simp only [isArray, pathEvery, if_true, exBind, exPure, Bool.true_and,
            allME_ok _ _ isRouteCoordinateE_ok]
          cases he : xs.all isRouteCoordinate
          · simp [he, exPure]
          · simp only [he, exBind, exPure, if_true, Bool.true_and]
            cases hl : isString (getF v "level")
            · simp [hl, exPure]
            · simp only [hl, if_true, Bool.true_and, exPure]
              cases hi : levelIncluded (getF v "level") <;> simp [hi, exPure]
        | null => simp [isArray, pathEvery, exPure]
        | bool b => simp [isArray, pathEvery, exPure]
        | num q => simp [isArray, pathEvery, exPure]
        | nan => simp [isArray, pathEvery, exPure]
        | str s => simp [isArray, pathEvery, exPure]
        | obj fs => simp [isArray, pathEvery, exPure]
  · simp [isTrafficSegmentE, isTrafficSegment, h, Bool.of_not_eq_true h, exPure]

/-- Evaluating `isItineraryLocation` never throws. -/
theorem isItineraryLocationE_ok (v : JsonVal) :
    isItineraryLocationE v = .ok (isItineraryLocation v) := by
  by_cases h : truthy v
  · simp only [isItineraryLocationE, isItineraryLocation, h,
      getFieldT_eq _ _ (truthy_ne_null h), exBind, exPure, if_true, Bool.true_and]
    cases hn : isString (getF v "name")
    · simp [hn, exPure]
    · simp only [hn, if_true, Bool.true_and, exPure]
      cases hd : isString (getF v "description")
      · simp [hd, exPure]
      · simp only [hd, if_true, Bool.true_and, exPure]
        cases ha : isNumber (getF v "lat")
        · simp [ha, exPure]
        · simp only [ha, if_true, Bool.true_and, exPure]
          cases hb : isNumber (getF v "lng")
          · simp [hb, exPure]
          · simp only [hb, if_true, Bool.true_and, exPure]
            cases ht : undefOr isString (getF v "time")
            · simp [ht, exPure]
            · simp only [ht, if_true, Bool.true_and, exPure]
              cases hu : undefOr isString (getF v "duration") <;> simp [hu, exPure]
  · simp [isItineraryLocationE, isItineraryLocation, h, Bool.of_not_eq_true h, exPure]

/-- Evaluating `isItineraryRoute` never throws. -/
theorem isItineraryRouteE_ok (v : JsonVal) :
    isItineraryRouteE v = .ok (isItineraryRoute v) := by
  by_cases h : truthy v
  · simp only [isItineraryRouteE, isItineraryRoute, h,
      getFieldT_eq _ _ (truthy_ne_null h), exBind, exPure, if_true, Bool.true_and,
      isRouteCoordinateOE_ok]
    cases hn : isString (getF v "name")
    · simp [hn, exPure]
    · simp only [hn, if_true, Bool.true_and, exPure, exBind]
      cases hs : isRouteCoordinateO (getF v "start")
      · simp [hs, exPure]
      · simp only [hs, if_true, Bool.true_and, exPure, exBind]
        cases he : isRouteCoordinateO (getF v "end")
        · simp [he, exPure]
        · simp only [he, if_true, Bool.true_and, exPure, exBind]
          cases ht : undefOr isString (getF v "transport") <;> simp [ht, exPure]
  · simp [isItineraryRouteE, isItineraryRoute, h, Bool.of_not_eq_true h, exPure]

/-! ### Fenced-block extraction

Both `planRoute` versions run
`const match = rawText.match(/` followed by three backticks, `json\s*([\s\S]*?)\s*`
and three closing backticks, `/)`.

Regular-expression matching is leftmost: the literal opening tag fixes the match
start at the first occurrence of the seven characters of the opening fence that is
followed by a later closing fence; because a closing fence later in the string also
closes any earlier opening tag, this is simply the first opening-tag occurrence
provided any closing fence follows it.  The lazy interior together with the two
greedy whitespace runs makes the match end at the first closing fence after the
opening tag, and makes the captured group the interior with leading and trailing
whitespace stripped. -/

/-- Index of the first occurrence of `pat` as a contiguous prefix of a suffix of
    the scanned list, if any. -/
def findPat (pat : List Char) : List Char → Option ℕ
  | [] => if pat.isPrefixOf [] then some 0 else none
  | c :: rest =>
      if pat.isPrefixOf (c :: rest) then some 0
      else (findPat pat rest).map (· + 1)

/-- The opening fence tag of the route-JSON block. -/
def openTag : List Char := "```json".toList

/-- The closing fence of the route-JSON block. -/
def closeTag : List Char := "```".toList

/-- Start index of the whole regex match and start index of its closing fence:
    the first opening tag followed by a closing fence, and the first closing fence
    after that opening tag. -/
def jsonBlockSpan (s : List Char) : Option (ℕ × ℕ) :=
  match findPat openTag s with
  | none => none
  | some i =>
      match findPat closeTag (s.drop (i + 7)) with
      | none => none
      | some k => some (i, i + 7 + k)

/-- The extraction both `planRoute` versions perform: the captured group
    `match[1]` (the fence interior, whitespace-trimmed) and the prose
    `rawText.replace(jsonBlockRegex, matched-with-empty).trim()` (the raw text with
    the entire match `s[i, j+3)` removed, then trimmed). -/
def routeExtract (s : List Char) : Option (List Char × List Char) :=
  match jsonBlockSpan s with
  | none => none
  | some (i, j) =>
      some (trimWs ((s.drop (i + 7)).take (j - (i + 7))),
        trimWs (s.take i ++ s.drop (j + 3)))

/-- A found pattern index is a genuine occurrence and is the first one. -/
theorem findPat_some (pat s : List Char) (i : ℕ) (h : findPat pat s = some i) :
    pat <+: s.drop i ∧ ∀ j, j < i → ¬ pat <+: s.drop j := by
  induction s generalizing i with
  | nil =>
      by_cases hp : pat.isPrefixOf ([] : List Char)
      · simp only [findPat, hp, if_true, Option.some.injEq] at h
        subst h
        exact ⟨List.isPrefixOf_iff_prefix.mp hp, fun j hj => absurd hj (by omega)⟩
      · simp [findPat, hp] at h
  | cons c rest ih =>
      by_cases hp : pat.isPrefixOf (c :: rest)
      · simp only [findPat, hp, if_true, Option.some.injEq] at h
        subst h
        exact ⟨List.isPrefixOf_iff_prefix.mp hp, fun j hj => absurd hj (by omega)⟩
      · cases hfp : findPat pat rest with
        | none => simp [findPat, hp, hfp] at h
        | some i0 =>
            simp [findPat, hp, hfp] at h
            obtain rfl : i = i0 + 1 := by omega
            obtain ⟨hocc, hmin⟩ := ih i0 hfp
            refine ⟨by simpa using hocc, ?_⟩
            intro j hj
            match j with
            | 0 =>
                simpa using fun hpre => hp (List.isPrefixOf_iff_prefix.mpr hpre)
            | j0 + 1 =>
                have := hmin j0 (by omega)
                simpa using this

/-- When no pattern index is found, there is no occurrence at all. -/
theorem findPat_none (pat s : List Char) (h : findPat pat s = none) :
    ∀ j, ¬ pat <+: s.drop j := by
  induction s with
  | nil =>
      intro j hpre
      by_cases hp : pat.isPrefixOf ([] : List Char)
      · simp [findPat, hp] at h
      · exact hp (List.isPrefixOf_iff_prefix.mpr (by simpa using hpre))
  | cons c rest ih =>
      intro j hpre
      by_cases hp : pat.isPrefixOf (c :: rest)
      · simp [findPat, hp] at h
      · simp only [findPat] at h
        rw [if_neg hp, Option.map_eq_none'] at h
        match j with
        | 0 => exact hp (List.isPrefixOf_iff_prefix.mpr (by simpa using hpre))
        | j0 + 1 => exact ih h j0 (by simpa using hpre)

/-! ### `JSON.parse`

An executable model of the host `JSON.parse`, used so the pipelines can be evaluated
on concrete raw strings.  It follows the JSON grammar: the four literals, strings
with the standard escapes (`\uXXXX` restricted to non-surrogate scalars; surrogate
pairs do not occur in any input considered here), numbers, arrays, and objects
where a duplicated key overwrites the earlier value in place, as `JSON.parse`
does.  Recursion over nested values is bounded by a fuel parameter that the
top-level entry point sets larger than any possible nesting depth. -/

/-- JSON whitespace. -/
def isJWs (c : Char) : Bool := c = ' ' || c = '\t' || c = '\n' || c = '\r'

/-- Skip JSON whitespace. -/
def skipW (cs : List Char) : List Char := cs.dropWhile isJWs

/-- Value of a hexadecimal digit. -/
def hexVal (c : Char) : Option ℕ :=
  if isDigitC c then some (c.toNat - '0'.toNat)
  else if decide ('a' ≤ c) && decide (c ≤ 'f') then some (c.toNat - 'a'.toNat + 10)
  else if decide ('A' ≤ c) && decide (c ≤ 'F') then some (c.toNat - 'A'.toNat + 10)
  else none

/-- One string escape sequence, after the backslash. -/
def parseEsc : List Char → Option (Char × List Char)
  | '"' :: r => some ('"', r)
  | '\\' :: r => some ('\\', r)
  | '/' :: r => some ('/', r)
  | 'b' :: r => some ('\x08', r)
  | 'f' :: r => some ('\x0c', r)
  | 'n' :: r => some ('\n', r)
  | 'r' :: r => some ('\r', r)
  | 't' :: r => some ('\t', r)
  | 'u' :: h1 :: h2 :: h3 :: h4 :: r =>
      match hexVal h1, hexVal h2, hexVal h3, hexVal h4 with
      | some a, some b, some c, some d =>
          let n := ((a * 16 + b) * 16 + c) * 16 + d
          if n < 0xd800 then some (Char.ofNat n, r)
          else if 0xe000 ≤ n then some (Char.ofNat n, r)
          else none
      | _, _, _, _ => none
  | _ => none

/-- Body of a JSON string after the opening quote, fuelled by the input length. -/
def strBody : ℕ → List Char → Option (List Char × List Char)
  | 0, _ => none
  | _, [] => none
  | fuel + 1, c :: r =>
      if c = '"' then some ([], r)
      else if c = '\\' then
        match parseEsc r with
        | some (ch, r2) =>
            match strBody fuel r2 with
            | some (s, r3) => some (ch :: s, r3)
            | none => none
        | none => none
      else if c.toNat < 32 then none
      else
        match strBody fuel r with
        | some (s, r3) => some (c :: s, r3)
        | none => none

/-- Integer part of a JSON number: a bare zero or a nonzero-led digit run. -/
def jnumInt : List Char → Option (List Char × List Char)
  | [] => none
  | '0' :: r => some (['0'], r)
  | c :: r =>
      if isDigitC c then some (c :: r.takeWhile isDigitC, r.dropWhile isDigitC)
      else none

/-- A JSON number: optional minus sign, integer part, optional fraction, optional
    exponent (the exponent grammar coincides with the decimal-literal exponent). -/
def parseJNum (cs : List Char) : Option (ℚ × List Char) :=
  let signed : Bool × List Char :=
    match cs with
    | '-' :: r => (true, r)
    | _ => (false, cs)
  match jnumInt signed.2 with
  | none => none
  | some (ip, r1) =>
      let fracPart : Option (List Char × List Char) :=
        match r1 with
        | '.' :: r2 =>
            let fp := r2.takeWhile isDigitC
            if fp.isEmpty then none else some (fp, r2.dropWhile isDigitC)
        | _ => some ([], r1)
      match fracPart with
      | none => none
      | some (fp, r2) =>
          match decExp r2 with
          | none => none
          | some (e, r3) =>
              let m := decMantissa ip fp
              some (if signed.1 then -scalePow10 m e else scalePow10 m e, r3)

/-- Insert a key into an object's field list, overwriting in place on a duplicate
    (the `JSON.parse` duplicate-key rule). -/
def putProp : List (String × JsonVal) → String → JsonVal → List (String × JsonVal)
  | [], k, v => [(k, v)]
  | (k0, v0) :: rest, k, v =>
      if k0 = k then (k0, v) :: rest else (k0, v0) :: putProp rest k v

mutual

/-- One JSON value, with leading whitespace. -/
def parseVal : ℕ → List Char → Option (JsonVal × List Char)
  | 0, _ => none
  | fuel + 1, cs =>
      match skipW cs with
      | 'n' :: 'u' :: 'l' :: 'l' :: r => some (.null, r)
      | 't' :: 'r' :: 'u' :: 'e' :: r => some (.bool true, r)
      | 'f' :: 'a' :: 'l' :: 's' :: 'e' :: r => some (.bool false, r)
      | '"' :: r =>
          match strBody r.length r with
          | some (s, r2) => some (.str (String.mk s), r2)
          | none => none
      | '[' :: r =>
          match skipW r with
          | ']' :: r2 => some (.arr [], r2)
          | _ => parseArrItems fuel r []
      | '{' :: r =>
          match skipW r with
          | '}' :: r2 => some (.obj [], r2)
          | _ => parseObjItems fuel r []
      | rest =>
          match parseJNum rest with
          | some (q, r) => some (.num q, r)
          | none => none

/-- The comma-separated items of a non-empty array, then the closing bracket. -/
def parseArrItems : ℕ → List Char → List JsonVal → Option (JsonVal × List Char)
  | 0, _, _ => none
  | fuel + 1, cs, acc =>
      match parseVal fuel cs with
      | none => none
      | some (v, r) =>
          match skipW r with
          | ',' :: r2 => parseArrItems fuel r2 (acc ++ [v])
          | ']' :: r2 => some (.arr (acc ++ [v]), r2)
          | _ => none

/-- The comma-separated members of a non-empty object, then the closing brace. -/
def parseObjItems : ℕ → List Char → List (String × JsonVal) → Option (JsonVal × List Char)
  | 0, _, _ => none
  | fuel + 1, cs, acc =>
      match skipW cs with
      | '"' :: r =>
          match strBody r.length r with
          | none => none
          | some (k, r2) =>
              match skipW r2 with
              | ':' :: r3 =>
                  match parseVal fuel r3 with
                  | none => none
                  | some (v, r4) =>
                      match skipW r4 with
                      | ',' :: r5 => parseObjItems fuel r5 (putProp acc (String.mk k) v)
                      | '}' :: r5 => some (.obj (putProp acc (String.mk k) v), r5)
                      | _ => none
              | _ => none
      | _ => none

end

/-- `JSON.parse`: a complete value with only whitespace around it; `none` models
    the thrown `SyntaxError`. -/
def jsonParse (cs : List Char) : Option JsonVal :=
  match parseVal (cs.length + 1) cs with
  | some (v, r) => if (skipW r).isEmpty then some v else none
  | none => none

/-! ### The guard-filter `planRoute` pipeline (src/unnamed/part_003 lines 263-291)

After extracting and parsing the fenced block, this version filters each candidate
array through its type guard: `parsedJson.steps.filter(isRouteStep)` and so on.
Reading `parsedJson.steps` throws a `TypeError` when the parsed value is `null`
(`JSON.parse("null")` succeeds); the `catch` then leaves every array empty and the
prose equal to the raw text, exactly as a parse failure would. -/

/-- Result record of the part_003 `planRoute` (grounding chunks, which come from
    the network response rather than from validation, are omitted). -/
structure RouteResult003 where
  text : List Char
  steps : List JsonVal
  landmarks : List JsonVal
  traffic : List JsonVal

/-- `parsedJson.k && Array.isArray(parsedJson.k)` guarding `parsedJson.k.filter(g)`
    (arrays are truthy, so the truthiness test is subsumed by the array test). -/
def arrFilter (g : JsonVal → Bool) (v : Option JsonVal) : List JsonVal :=
  match v with
  | some (.arr xs) => xs.filter g
  | _ => []

/-- The part_003 validation of a successfully parsed payload.  The first property
    read throws on a `null` payload, reverting to the raw-text result; otherwise
    the three arrays are filtered through their guards and the prose is the
    remaining text. -/
def planRoute003Json (pj : JsonVal) (raw rem : List Char) : RouteResult003 :=
  match getFieldT pj "steps" with
  | .error _ => ⟨raw, [], [], []⟩
  | .ok sv =>
      ⟨rem, arrFilter isRouteStep sv,
        arrFilter isLandmark (getF pj "landmarks"),
        arrFilter isTrafficSegment (getF pj "traffic")⟩

/-- The full part_003 `planRoute` response handling: fence extraction (with the
    falsy-`match[1]` test), `JSON.parse` with `catch`, guard filtering. -/
def planRoute003 (rawText : List Char) : RouteResult003 :=
  match routeExtract rawText with
  | none => ⟨rawText, [], [], []⟩
  | some (payload, remaining) =>
      if payload.isEmpty then ⟨rawText, [], [], []⟩
      else
        match jsonParse payload with
        | none => ⟨rawText, [], [], []⟩
        | some pj => planRoute003Json pj rawText remaining

/-! ### The strict-sanitizer `planRoute` pipeline (src/unnamed/part_011 lines 272-316)

This version rebuilds each record: defaults for falsy `description`/`name`/`level`,
paths mapped through `validateCoord` with the failures filtered out, then a length
threshold (`> 0` for steps, `> 1` for traffic, position non-`null` for landmarks).
The element accesses `step.description`, `lm.name` and `t.level` are not
optional-chained, so a `null` candidate record throws inside the `.map` callback;
the `catch` then leaves the arrays assigned so far and reverts the prose to the raw
text. -/

/-- A sanitized route step: `description` keeps whatever truthy value the model
    sent (or the default string), `path` holds the validated coordinates. -/
structure SanStep where
  description : JsonVal
  path : List (ℚ × ℚ)

/-- A sanitized landmark (after the `position !== null` filter). -/
structure SanLandmark where
  name : JsonVal
  position : ℚ × ℚ

/-- A sanitized traffic segment.  `level` is not checked against the enumerated
    set here: any truthy value is kept as-is and only a falsy one is replaced by
    the default. -/
structure SanTraffic where
  level : JsonVal
  description : JsonVal
  path : List (ℚ × ℚ)

/-- JavaScript `x || d` for a possibly-undefined `x`. -/
def jsOr (v : Option JsonVal) (d : JsonVal) : JsonVal :=
  match v with
  | some x => if truthy x then x else d
  | none => d

/-- `Array.isArray(p) ? p.map(x => validateCoord(x?.lat, x?.lng)).filter(x => x !== null) : []`. -/
def sanPath (pv : Option JsonVal) : List (ℚ × ℚ) :=
  match pv with
  | some (.arr ps) =>
      ps.filterMap (fun p => validateCoord (chainF (some p) "lat") (chainF (some p) "lng"))
  | _ => []

/-- The step `.map` callback, with its throwing `step.description` read. -/
def sanStepE (step : JsonVal) : Except Unit SanStep := do
  let d ← getFieldT step "description"
  let pv ← getFieldT step "path"
  pure { description := jsOr d (.str "Move to next point"), path := sanPath pv }

/-- The step callback on a non-`null` candidate. -/
def sanStepT (step : JsonVal) : SanStep :=
  { description := jsOr (getF step "description") (.str "Move to next point"),
    path := sanPath (getF step "path") }

/-- The landmark `.map` callback, with its throwing `lm.name` read; the position
    is validated through the optional-chained `lm.position?.lat` / `?.lng`. -/
def sanLandmarkE (lm : JsonVal) : Except Unit (JsonVal × Option (ℚ × ℚ)) := do
  let n ← getFieldT lm "name"
  let posv ← getFieldT lm "position"
  pure (jsOr n (.str "Landmark"),
    validateCoord (chainF posv "lat") (chainF posv "lng"))

/-- The landmark callback on a non-`null` candidate. -/
def sanLandmarkT (lm : JsonVal) : JsonVal × Option (ℚ × ℚ) :=
  (jsOr (getF lm "name") (.str "Landmark"),
    validateCoord (chainF (getF lm "position") "lat") (chainF (getF lm "position") "lng"))

/-- The traffic `.map` callback, with its throwing `t.level` read. -/
def sanTrafficE (t : JsonVal) : Except Unit SanTraffic := do
  let lv ← getFieldT t "level"
  let d ← getFieldT t "description"
  let pv ← getFieldT t "path"
  pure (SanTraffic.mk (jsOr lv (.str "moderate")) (jsOr d (.str "Traffic info"))
    (sanPath pv))

/-- The traffic callback on a non-`null` candidate. -/
def sanTrafficT (t : JsonVal) : SanTraffic :=
  { level := jsOr (getF t "level") (.str "moderate"),
    description := jsOr (getF t "description") (.str "Traffic info"),
    path := sanPath (getF t "path") }

/-- Monadic `Array.prototype.map`: the first exception aborts the whole array. -/
def mapME {α : Type} (f : JsonVal → Except Unit α) : List JsonVal → Except Unit (List α)
  | [] => pure []
  | x :: xs => do
      let y ← f x
      let ys ← mapME f xs
      pure (y :: ys)

/-- `steps = parsedJson.steps.map(...).filter(step => step.path.length > 0)`,
    guarded by the array test; absent or non-array `steps` leaves the default. -/
def stepsStage (pj : JsonVal) : Except Unit (List SanStep) := do
  let f ← getFieldT pj "steps"
  match f with
  | some (.arr xs) => do
      let ys ← mapME sanStepE xs
      pure (ys.filter (fun st => st.path.length > 0))
  | _ => pure []

/-- `landmarks = parsedJson.landmarks.map(...).filter(lm => lm.position !== null)`. -/
def landmarksStage (pj : JsonVal) : Except Unit (List SanLandmark) := do
  let f ← getFieldT pj "landmarks"
  match f with
  | some (.arr xs) => do
      let ys ← mapME sanLandmarkE xs
      pure (ys.filterMap (fun nm =>
        match nm with
        | (n, some pos) => some ⟨n, pos⟩
        | (_, none) => none))
  | _ => pure []

/-- `trafficSegments = parsedJson.traffic.map(...).filter(t => t.path.length > 1)`. -/
def trafficStage (pj : JsonVal) : Except Unit (List SanTraffic) := do
  let f ← getFieldT pj "traffic"
  match f with
  | some (.arr xs) => do
      let ys ← mapME sanTrafficE xs
      pure (ys.filter (fun t => t.path.length > 1))
  | _ => pure []

/-- Result record of the part_011 `planRoute`. -/
structure RouteResult011 where
  text : List Char
  steps : List SanStep
  landmarks : List SanLandmark
  traffic : List SanTraffic

/-- The part_011 validation of a successfully parsed payload.  The stages run in
    source order inside one `try`; an exception keeps the arrays already assigned
    and leaves the prose at the raw text (the prose is only replaced after the
    last stage). -/
def planRoute011Json (pj : JsonVal) (raw rem : List Char) : RouteResult011 :=
  match stepsStage pj with
  | .error _ => ⟨raw, [], [], []⟩
  | .ok st =>
      match landmarksStage pj with
      | .error _ => ⟨raw, st, [], []⟩
      | .ok lms =>
          match trafficStage pj with
          | .error _ => ⟨raw, st, lms, []⟩
          | .ok tr => ⟨rem, st, lms, tr⟩

/-- The full part_011 `planRoute` response handling. -/
def planRoute011 (rawText : List Char) : RouteResult011 :=
  match routeExtract rawText with
  | none => ⟨rawText, [], [], []⟩
  | some (payload, remaining) =>
      if payload.isEmpty then ⟨rawText, [], [], []⟩
      else
        match jsonParse payload with
        | none => ⟨rawText, [], [], []⟩
        | some pj => planRoute011Json pj rawText remaining

/-! ### Itinerary locations (`planDayItinerary`)

Both versions walk the function calls of the model response; for a `location` call
they build a record from the call arguments (`args` is a non-null object: the loop
does `if (!args) continue` first).

- part_011 (lines 160-172): validates the coordinate pair with `validateCoord` and
  pushes a record whose `sequence` is `validateNumber(args.sequence) || 0`.
- part_003 (lines 150-164): builds `potentialLoc` with `lat: Number(args.lat)`,
  `lng: Number(args.lng)`, `sequence: Number(args.sequence)` and keeps it only if
  `isItineraryLocation` accepts it.  `Number(undefined)` is `NaN`, so an absent
  `sequence` becomes `NaN`, which the guard rejects.

A record field whose value is `undefined` in JavaScript (such as `time` when
`args.time` is absent) is modelled as an absent key; every read the guards and the
sort perform treats the two identically. -/

/-- A validated itinerary location as the part_011 pipeline stores it.  `sequence`
    is an `Option` so the same record type can also express the sort comparator's
    treatment of an absent sequence. -/
structure ItinLoc where
  name : JsonVal
  description : JsonVal
  lat : ℚ
  lng : ℚ
  time : Option JsonVal
  duration : Option JsonVal
  sequence : Option ℚ

/-- `v || 0` on the result of `validateNumber` (`null` becomes `0`; a zero result
    is falsy but `0 || 0` is again `0`). -/
def orZero : Option ℚ → ℚ
  | some q => q
  | none => 0

/-- The part_011 handling of one `location` function call: push the record iff
    `validateCoord(args.lat, args.lng)` succeeds. -/
def locStep011 (args : JsonVal) : Option ItinLoc :=
  match validateCoord (getF args "lat") (getF args "lng") with
  | none => none
  | some c =>
      some (ItinLoc.mk (jsOr (getF args "name") (.str "Location"))
        (jsOr (getF args "description") (.str "")) c.1 c.2
        (getF args "time") (getF args "duration")
        (some (orZero (validateNumber (getF args "sequence")))))

/-- Wrap a coerced number back into a record field: `NaN` when coercion failed. -/
def numOrNaN : Option ℚ → JsonVal
  | some q => .num q
  | none => .nan

/-- A key-value entry that is present only when the value is defined. -/
def optField (k : String) (v : Option JsonVal) : List (String × JsonVal) :=
  match v with
  | some x => [(k, x)]
  | none => []

/-- The `potentialLoc` object the part_003 pipeline constructs from a `location`
    function call before validating it. -/
def potentialLoc (args : JsonVal) : JsonVal :=
  .obj (optField "name" (getF args "name") ++
    optField "description" (getF args "description") ++
    [("lat", numOrNaN (jsToNumber (getF args "lat"))),
      ("lng", numOrNaN (jsToNumber (getF args "lng")))] ++
    optField "time" (getF args "time") ++
    optField "duration" (getF args "duration") ++
    [("sequence", numOrNaN (jsToNumber (getF args "sequence")))])

/-- The part_003 handling of one `location` function call: push `potentialLoc`
    iff `isItineraryLocation` accepts it. -/
def locStep003 (args : JsonVal) : Option JsonVal :=
  if isItineraryLocation (potentialLoc args) then some (potentialLoc args) else none

/-! ### The sequence sort

Both versions end with `locations.sort((a, b) => (a.sequence || 0) - (b.sequence || 0))`.
`Array.prototype.sort` is stable and orders by the sign of the comparator, i.e. it
stably sorts ascending by the key `sequence || 0`.  A stable sort by a total
preorder is extensionally unique, so the insertion sort below (which inserts each
element before the later-position elements of equal key) is the same function. -/

/-- Insert `x` into an already sorted list, before the first element whose key is
    not smaller (keeping `x` ahead of equal-key elements that came later in the
    input). -/
def insertBySeq {α : Type} (key : α → ℚ) (x : α) : List α → List α
  | [] => [x]
  | y :: ys => if key y < key x then y :: insertBySeq key x ys else x :: y :: ys

/-- Stable ascending sort by a rational key. -/
def sortBySeq {α : Type} (key : α → ℚ) : List α → List α
  | [] => []
  | x :: xs => insertBySeq key x (sortBySeq key xs)

/-- The comparator key `a.sequence || 0` on the part_011 record type: an absent
    sequence counts as `0` (a present `0` is falsy, but `0 || 0` is still `0`). -/
def seqKey (x : ItinLoc) : ℚ :=
  match x.sequence with
  | some q => q
  | none => 0

/-- The comparator key `a.sequence || 0` on the part_003 record objects (their
    guard guarantees `sequence` is a number when present). -/
def seqKey003 (loc : JsonVal) : ℚ :=
  match getF loc "sequence" with
  | some (.num q) => q
  | _ => 0

/-! ## Claims -/

/-- Claim C1, amended.  If either value fails numeric conversion (`NaN`), or
    `abs(lat) > 90`, or `abs(lng) > 180`, both validators reject the pair.  Within
    bounds the two cited validators disagree: `validateCoord` (part_011) accepts
    every in-bounds numeric pair, including `(0, 0)`; `isValidCoord` (part_001)
    additionally requires each coordinate separately to be nonzero, so it rejects
    `(0, 0)` and also rejects any pair in which exactly one coordinate is zero. -/
theorem C1_coordinate_validation :
    (∀ lat lng : Option JsonVal, ∀ a b : ℚ,
        validateCoord lat lng = some (a, b) ↔
          jsToNumber lat = some a ∧ jsToNumber lng = some b ∧ |a| ≤ 90 ∧ |b| ≤ 180) ∧
    (∀ lat lng : Option JsonVal,
        isValidCoord lat lng = true ↔
          ∃ a b : ℚ, jsToNumber lat = some a ∧ jsToNumber lng = some b ∧
            a ≠ 0 ∧ b ≠ 0 ∧ |a| ≤ 90 ∧ |b| ≤ 180) ∧
    validateCoord (some (.num 0)) (some (.num 0)) = some (0, 0) ∧
    isValidCoord (some (.num 0)) (some (.num 0)) = false := by
  refine ⟨?_, ?_, by decide, by decide⟩
  · intro lat lng a b
    unfold validateCoord validateNumber
    cases hla : jsToNumber lat with
    | none => simp
    | some x =>
        cases hlb : jsToNumber lng with
        | none => simp
        | some y =>
            by_cases hb : |x| > 90 ∨ |y| > 180
            · have : (decide (|x| > 90) || decide (|y| > 180)) = true := by
                rcases hb with h | h <;> simp [h]
              simp only [this, if_true, Option.some.injEq]
              constructor
              · intro hfalse; cases hfalse
              · rintro ⟨hxa, hyb, h90, h180⟩
                obtain rfl : x = a := by simpa using hxa
                obtain rfl : y = b := by simpa using hyb
                rcases hb with h | h
                · exact absurd h90 (by simpa using h)
                · exact absurd h180 (by simpa using h)
            · push_neg at hb
              have : (decide (|x| > 90) || decide (|y| > 180)) = false := by
                simp [not_lt.mpr hb.1, not_lt.mpr hb.2]
              simp only [this, if_false, Bool.false_eq_true, Option.some.injEq,
                Prod.mk.injEq]
              constructor
              · rintro ⟨rfl, rfl⟩
                exact ⟨rfl, rfl, hb.1, hb.2⟩
              · rintro ⟨hxa, hyb, _, _⟩
                exact ⟨by simpa using hxa, by simpa using hyb⟩
  · intro lat lng
    unfold isValidCoord
    cases hla : jsToNumber lat with
    | none => simp
    | some x =>
        cases hlb : jsToNumber lng with
        | none => simp
        | some y =>
            simp only [Bool.and_eq_true, decide_eq_true_eq, Option.some.injEq]
            constructor
            · rintro ⟨⟨⟨hx0, hy0⟩, h90⟩, h180⟩
              exact ⟨x, y, rfl, rfl, hx0, hy0, h90, h180⟩
            · rintro ⟨a, b, ha, hb, ha0, hb0, h90, h180⟩
              subst ha; subst hb
              exact ⟨⟨⟨ha0, hb0⟩, h90⟩, h180⟩

/-- Claim C1 counterexample: contrary to the claim, the in-bounds pair
    `(0, 100)` (numeric, not both zero) is rejected by `isValidCoord`, and the
    pair `(0, 0)` is accepted (not rejected) by `validateCoord`. -/
theorem C1_counterexample :
    validateCoord (some (.num 0)) (some (.num 0)) = some (0, 0) ∧
    isValidCoord (some (.num 0)) (some (.num 100)) = false := by
  constructor <;> decide

/-- Claim C2, amended.  The match span really is the first fenced `json` block:
    the opening tag is at the first occurrence of the seven opening-fence
    characters, the block ends at the first closing fence after it, the captured
    payload is the whitespace-trimmed interior, and the prose on success is the
    raw text with the whole span removed and trimmed.  When the block exists,
    its interior is non-empty, and it parses to a JSON value *other than `null`*,
    the result carries the filtered arrays of that value and the block-removed
    prose.  When there is no block, the interior is empty (falsy `match[1]`), the
    parse fails, or the parse yields `null` (whose property read throws a caught
    `TypeError`), every array is empty and the prose is the raw text.  No case
    raises: the function is total and every failure falls back to prose-only. -/
theorem C2_extraction :
    (∀ s i j, jsonBlockSpan s = some (i, j) →
        openTag <+: s.drop i ∧ (∀ i2, i2 < i → ¬ openTag <+: s.drop i2) ∧
          closeTag <+: s.drop j ∧ i + 7 ≤ j ∧
          ∀ j2, i + 7 ≤ j2 → j2 < j → ¬ closeTag <+: s.drop j2) ∧
    (∀ s i j, jsonBlockSpan s = some (i, j) →
        routeExtract s =
          some (trimWs ((s.drop (i + 7)).take (j - (i + 7))),
            trimWs (s.take i ++ s.drop (j + 3)))) ∧
    (∀ s payload rest v, routeExtract s = some (payload, rest) → payload ≠ [] →
        jsonParse payload = some v → v ≠ JsonVal.null →
        planRoute003 s = ⟨rest, arrFilter isRouteStep (getF v "steps"),
          arrFilter isLandmark (getF v "landmarks"),
          arrFilter isTrafficSegment (getF v "traffic")⟩) ∧
    (∀ s, routeExtract s = none → planRoute003 s = ⟨s, [], [], []⟩) ∧
    (∀ s rest, routeExtract s = some ([], rest) → planRoute003 s = ⟨s, [], [], []⟩) ∧
    (∀ s payload rest, routeExtract s = some (payload, rest) →
        jsonParse payload = none → planRoute003 s = ⟨s, [], [], []⟩) ∧
    (∀ s payload rest, routeExtract s = some (payload, rest) →
        jsonParse payload = some JsonVal.null → planRoute003 s = ⟨s, [], [], []⟩) := by
  refine ⟨?_, ?_, ?_, ?_, ?_, ?_, ?_⟩
  · intro s i j h
    cases ho : findPat openTag s with
    | none => simp [jsonBlockSpan, ho] at h
    | some i0 =>
        cases hc : findPat closeTag (s.drop (i0 + 7)) with
        | none => simp [jsonBlockSpan, ho, hc] at h
        | some k =>
            simp only [jsonBlockSpan, ho, hc, Option.some.injEq, Prod.mk.injEq] at h
            obtain ⟨rfl, hj⟩ := h
            subst hj
            obtain ⟨hoc, homin⟩ := findPat_some _ _ _ ho
            obtain ⟨hcc, hcmin⟩ := findPat_some _ _ _ hc
            refine ⟨hoc, fun i2 hi2 => homin i2 hi2, ?_, by omega, ?_⟩
            · simpa [List.drop_drop, Nat.add_comm, Nat.add_assoc, Nat.add_left_comm]
                using hcc
            · intro j2 hj2a hj2b hpre
              have hm := hcmin (j2 - (i0 + 7)) (by omega)
              apply hm
              have he : i0 + 7 + (j2 - (i0 + 7)) = j2 := by omega
              simpa [List.drop_drop, he] using hpre
  · intro s i j h
    simp only [routeExtract, h]
  · intro s payload rest v hex hne hparse hnull
    have hne2 : payload.isEmpty = false := by
      cases payload with
      | nil => exact absurd rfl hne
      | cons c cs => rfl
    simp only [planRoute003, hex, hne2, Bool.false_eq_true, if_false, hparse,
      planRoute003Json, getFieldT_eq _ _ hnull]
  · intro s h
    simp only [planRoute003, h]
  · intro s rest h
    simp only [planRoute003, h, List.isEmpty_nil, if_true]
  · intro s payload rest hex hparse
    cases payload with
    | nil => simp only [planRoute003, hex, List.isEmpty_nil, if_true]
    | cons c cs =>
        simp only [planRoute003, hex, List.isEmpty_cons, Bool.false_eq_true,
          if_false, hparse]
  · intro s payload rest hex hparse
    cases payload with
    | nil => simp only [planRoute003, hex, List.isEmpty_nil, if_true]
    | cons c cs =>
        simp only [planRoute003, hex, List.isEmpty_cons, Bool.false_eq_true,
          if_false, hparse, planRoute003Json, getFieldT]

/-- Claim C2 witness: the success branch evaluated on a concrete response whose
    fenced block holds an object payload. -/
theorem C2_extraction_witness :
    planRoute003 ("hi ```json \x7b\"steps\": []\x7d ``` bye").toList =
      ⟨("hi  bye").toList, [], [], []⟩ :=
  C2_extraction.2.2.1 ("hi ```json \x7b\"steps\": []\x7d ``` bye").toList
    ("\x7b\"steps\": []\x7d").toList ("hi  bye").toList (.obj [("steps", .arr [])])
    (by rfl) (by decide) (by rfl) (fun h => JsonVal.noConfusion h)

/-- A strict filter really shrinks: one failing element makes the output shorter. -/
theorem length_filter_lt {α : Type} (p : α → Bool) (l : List α)
    (h : ∃ x ∈ l, p x = false) : (l.filter p).length < l.length := by
  induction l with
  | nil => simp at h
  | cons a t ih =>
      obtain ⟨x, hx, hpx⟩ := h
      by_cases hpa : p a
      · have ht : ∃ y ∈ t, p y = false := by
          rcases List.mem_cons.mp hx with h1 | h1
          · subst h1; exact absurd hpa (by simp [hpx])
          · exact ⟨x, h1, hpx⟩
        simp only [List.filter_cons, hpa, if_true, List.length_cons]
        exact Nat.succ_lt_succ (ih ht)
      · have hl : (List.filter p (a :: t)).length = (t.filter p).length := by
          simp [List.filter_cons, hpa]
        rw [hl]
        exact Nat.lt_succ_of_le (List.length_filter_le p t)

/-- The step callback never throws on a non-`null` candidate. -/
theorem sanStepE_ok (x : JsonVal) (h : x ≠ JsonVal.null) :
    sanStepE x = .ok (sanStepT x) := by
  simp [sanStepE, sanStepT, getFieldT_eq _ _ h, exBind, exPure]

/-- The landmark callback never throws on a non-`null` candidate. -/
theorem sanLandmarkE_ok (x : JsonVal) (h : x ≠ JsonVal.null) :
    sanLandmarkE x = .ok (sanLandmarkT x) := by
  simp [sanLandmarkE, sanLandmarkT, getFieldT_eq _ _ h, exBind, exPure]

/-- The traffic callback never throws on a non-`null` candidate. -/
theorem sanTrafficE_ok (x : JsonVal) (h : x ≠ JsonVal.null) :
    sanTrafficE x = .ok (sanTrafficT x) := by
  simp [sanTrafficE, sanTrafficT, getFieldT_eq _ _ h, exBind, exPure]

/-- Monadic map with a never-throwing body is plain `map`. -/
theorem mapME_ok {α : Type} (f : JsonVal → Except Unit α) (g : JsonVal → α)
    (xs : List JsonVal) (h : ∀ x ∈ xs, f x = .ok (g x)) :
    mapME f xs = .ok (xs.map g) := by
  induction xs with
  | nil => simp [mapME, exPure]
  | cons x t ih =>
      simp only [mapME, h x (List.mem_cons_self x t), exBind, List.map_cons,
        ih (fun y hy => h y (List.mem_cons_of_mem x hy)), exPure]

/-- Binding a failed `Except Unit` computation stays failed. -/
theorem exBindErr {α β : Type} (f : α → Except Unit β) :
    ((Except.error () : Except Unit α) >>= f) = .error () := rfl

/-- Monadic map aborts whole when any element throws. -/
theorem mapME_error {α : Type} (f : JsonVal → Except Unit α) (xs : List JsonVal)
    (x : JsonVal) (hx : x ∈ xs) (hf : f x = .error ()) :
    mapME f xs = .error () := by
  induction xs with
  | nil => simp at hx
  | cons y t ih =>
      rcases List.mem_cons.mp hx with h1 | h1
      · subst h1; simp [mapME, hf, exBindErr]
      · cases hfy : f y with
        | error e => cases e; simp [mapME, hfy, exBindErr]
        | ok a => simp [mapME, hfy, exBind, ih h1]

/-- The steps stage on an array of non-`null` candidates: each element sanitized
    independently, then the `path.length > 0` filter. -/
theorem stepsStage_eq (pj : JsonVal) (xs : List JsonVal) (hpj : pj ≠ JsonVal.null)
    (hf : getF pj "steps" = some (.arr xs)) (hnn : ∀ x ∈ xs, x ≠ JsonVal.null) :
    stepsStage pj = .ok ((xs.map sanStepT).filter (fun st => st.path.length > 0)) := by
  simp [stepsStage, getFieldT_eq _ _ hpj, hf, exBind, exPure,
    mapME_ok sanStepE sanStepT xs (fun x hx => sanStepE_ok x (hnn x hx))]

/-- The landmarks stage on an array of non-`null` candidates. -/
theorem landmarksStage_eq (pj : JsonVal) (xs : List JsonVal) (hpj : pj ≠ JsonVal.null)
    (hf : getF pj "landmarks" = some (.arr xs)) (hnn : ∀ x ∈ xs, x ≠ JsonVal.null) :
    landmarksStage pj = .ok ((xs.map sanLandmarkT).filterMap (fun nm =>
      match nm with
      | (n, some pos) => some ⟨n, pos⟩
      | (_, none) => none)) := by
  simp [landmarksStage, getFieldT_eq _ _ hpj, hf, exBind, exPure,
    mapME_ok sanLandmarkE sanLandmarkT xs (fun x hx => sanLandmarkE_ok x (hnn x hx))]

/-- The traffic stage on an array of non-`null` candidates. -/
theorem trafficStage_eq (pj : JsonVal) (xs : List JsonVal) (hpj : pj ≠ JsonVal.null)
    (hf : getF pj "traffic" = some (.arr xs)) (hnn : ∀ x ∈ xs, x ≠ JsonVal.null) :
    trafficStage pj = .ok ((xs.map sanTrafficT).filter (fun t => t.path.length > 1)) := by
  simp [trafficStage, getFieldT_eq _ _ hpj, hf, exBind, exPure,
    mapME_ok sanTrafficE sanTrafficT xs (fun x hx => sanTrafficE_ok x (hnn x hx))]

/-- Claim C3, amended.  For the guard-filter validator (part_003) the property
    holds for every batch and every guard: one structurally invalid entry makes
    the output strictly shorter, every surviving entry satisfies the guard, the
    output is a sublist of the input (relative order preserved), a valid entry is
    always kept, and the output is empty exactly when every entry is invalid.  In
    the strict sanitizer (part_011), per-candidate independence holds provided no
    candidate is JSON `null`: a `null` candidate throws inside the `.map` callback
    and the caught exception empties that batch and all later ones and reverts the
    prose to the raw text (see the counterexample). -/
theorem C3_drop_not_fail :
    (∀ (p : JsonVal → Bool) (xs : List JsonVal),
        (∃ x ∈ xs, p x = false) →
          (arrFilter p (some (.arr xs))).length < xs.length) ∧
    (∀ (p : JsonVal → Bool) (xs : List JsonVal) (y : JsonVal),
        y ∈ arrFilter p (some (.arr xs)) → p y = true) ∧
    (∀ (p : JsonVal → Bool) (xs : List JsonVal),
        List.Sublist (arrFilter p (some (.arr xs))) xs) ∧
    (∀ (p : JsonVal → Bool) (xs : List JsonVal) (x : JsonVal),
        x ∈ xs → p x = true → x ∈ arrFilter p (some (.arr xs))) ∧
    (∀ (p : JsonVal → Bool) (xs : List JsonVal),
        arrFilter p (some (.arr xs)) = [] ↔ ∀ x ∈ xs, p x = false) ∧
    (∀ pj xs, pj ≠ JsonVal.null → getF pj "steps" = some (.arr xs) →
        (∀ x ∈ xs, x ≠ JsonVal.null) →
        stepsStage pj =
          .ok ((xs.map sanStepT).filter (fun st => st.path.length > 0))) := by
  refine ⟨?_, ?_, ?_, ?_, ?_, stepsStage_eq⟩
  · intro p xs h
    simpa [arrFilter] using length_filter_lt p xs h
  · intro p xs y hy
    simp only [arrFilter] at hy
    exact (List.mem_filter.mp hy).2
  · intro p xs
    simp only [arrFilter]
    exact List.filter_sublist xs
  · intro p xs x hx hpx
    simp only [arrFilter]
    exact List.mem_filter.mpr ⟨hx, hpx⟩
  · intro p xs
    simp only [arrFilter, List.filter_eq_nil_iff]
    constructor
    · intro h x hx
      simpa using h x hx
    · intro h x hx
      simpa using h x hx

/-- Example route step candidate with a valid description and one in-bounds
    coordinate. -/
def stepGo : JsonVal :=
  .obj [("description", .str "go"), ("path", .arr [.obj [("lat", .num 20), ("lng", .num 85)]])]

/-- Claim C3 witness: a batch in which the second of three steps is invalid
    (its path is not an array) loses exactly that entry. -/
theorem C3_drop_not_fail_witness :
    arrFilter isRouteStep (some (.arr [stepGo, JsonVal.num 7, stepGo])) =
        [stepGo, stepGo] ∧
    (arrFilter isRouteStep (some (.arr [stepGo, JsonVal.num 7, stepGo]))).length <
        ([stepGo, JsonVal.num 7, stepGo] : List JsonVal).length ∧
    stepsStage (JsonVal.obj [("steps", JsonVal.arr [stepGo])]) =
        .ok [SanStep.mk (.str "go") [(20, 85)]] := by
  refine ⟨by rfl, ?_, ?_⟩
  · exact C3_drop_not_fail.1 isRouteStep [stepGo, JsonVal.num 7, stepGo]
      ⟨JsonVal.num 7, by simp, by rfl⟩
  · exact (stepsStage_eq (JsonVal.obj [("steps", JsonVal.arr [stepGo])]) [stepGo]
      (fun h => JsonVal.noConfusion h) (by rfl)
      (fun x hx => by
        rcases List.mem_singleton.mp hx with rfl
        exact fun h => JsonVal.noConfusion h)).trans (by rfl)

/-- Claim C3 counterexample: in the part_011 sanitizer a batch containing a valid
    step and a `null` candidate yields an empty steps array — the valid entry is
    dropped because another entry is invalid — and the prose reverts to the raw
    text. -/
theorem C3_counterexample :
    stepsStage (JsonVal.obj [("steps", JsonVal.arr [stepGo])]) =
        .ok [SanStep.mk (.str "go") [(20, 85)]] ∧
    stepsStage (JsonVal.obj [("steps", JsonVal.arr [stepGo, JsonVal.null])]) =
        .error () ∧
    planRoute011Json (JsonVal.obj [("steps", JsonVal.arr [stepGo, JsonVal.null])])
        ("raw").toList ("rem").toList =
      ⟨("raw").toList, [], [], []⟩ := by
  refine ⟨by rfl, by rfl, by rfl⟩

/-- A coordinate object as the model emits it. -/
def coordJ (a b : ℚ) : JsonVal :=
  .obj [("lat", .num a), ("lng", .num b)]

/-- A traffic-segment candidate with a two-point valid path, a text description,
    and the given level string. -/
def segLevel (lv : String) : JsonVal :=
  .obj [("path", .arr [coordJ 20 85, coordJ 21 86]), ("description", .str "jam"),
    ("level", .str lv)]

/-- Claim C4, amended.  `isTrafficSegment(x)` is true exactly when `x` is truthy
    with an array `path` of route coordinates, a `level` string that is exactly
    one of `light`/`moderate`/`heavy`, and a text `description`; any other string
    level makes the guard reject, so the guard-filter pipeline (part_003) drops
    the whole record.  The strict sanitizer (part_011), however, never checks the
    level: it keeps a segment with level `"extreme"` (see the counterexample), so
    the drop consequence holds only for the guard-filter pipeline. -/
theorem isString_some (v : Option JsonVal) (h : isString v = true) :
    ∃ s, v = some (.str s) := by
  cases v with
  | none => cases h
  | some w => cases w <;> first | exact ⟨_, rfl⟩ | cases h

theorem isNumber_some (v : Option JsonVal) (h : isNumber v = true) :
    ∃ q, v = some (.num q) := by
  cases v with
  | none => cases h
  | some w => cases w <;> first | exact ⟨_, rfl⟩ | cases h

theorem C4_traffic_level :
    (∀ x : JsonVal, isTrafficSegment x = true ↔
        truthy x = true ∧
        (∃ ps, getF x "path" = some (.arr ps) ∧ ∀ p ∈ ps, isRouteCoordinate p = true) ∧
        (∃ s, getF x "level" = some (.str s) ∧
          (s = "light" ∨ s = "moderate" ∨ s = "heavy")) ∧
        (∃ d, getF x "description" = some (.str d))) ∧
    (∀ (x : JsonVal) (s : String), getF x "level" = some (.str s) →
        s ≠ "light" → s ≠ "moderate" → s ≠ "heavy" → isTrafficSegment x = false) ∧
    (∀ (xs : List JsonVal) (x : JsonVal) (s : String), getF x "level" = some (.str s) →
        s ≠ "light" → s ≠ "moderate" → s ≠ "heavy" →
        x ∉ arrFilter isTrafficSegment (some (.arr xs))) := by
  have hrej : ∀ (x : JsonVal) (s : String), getF x "level" = some (.str s) →
      s ≠ "light" → s ≠ "moderate" → s ≠ "heavy" → isTrafficSegment x = false := by
    intro x s hs h1 h2 h3
    simp [isTrafficSegment, levelIncluded, hs, h1, h2, h3]
  refine ⟨?_, hrej, ?_⟩
  · intro x
    simp only [isTrafficSegment, Bool.and_eq_true]
    constructor
    · rintro ⟨⟨⟨⟨⟨ht, ha⟩, hp⟩, hs⟩, hl⟩, hd⟩
      obtain ⟨s, hs2⟩ := isString_some _ hs
      obtain ⟨d, hd2⟩ := isString_some _ hd
      refine ⟨ht, ?_, ⟨s, hs2, ?_⟩, ⟨d, hd2⟩⟩
      · cases hpv : getF x "path" with
        | none => rw [hpv] at hp; cases hp
        | some w =>
            cases w <;> rw [hpv] at hp <;> try cases hp
            case arr ps =>
              exact ⟨ps, rfl, fun p hpmem => by
                simpa using List.all_eq_true.mp (by simpa [pathEvery] using hp) p hpmem⟩
      · rw [hs2] at hl
        have hm : (s = "light" || s = "moderate" || s = "heavy") = true := by
          simpa [levelIncluded] using hl
        have := by simpa using hm
        tauto
    · rintro ⟨ht, ⟨ps, hps, hall⟩, ⟨s, hs, hmem⟩, ⟨d, hd⟩⟩
      refine ⟨⟨⟨⟨⟨ht, ?_⟩, ?_⟩, ?_⟩, ?_⟩, ?_⟩
      · simp [isArray, hps]
      · simp only [pathEvery, hps, List.all_eq_true]
        intro p hp
        simpa using hall p hp
      · simp [isString, hs]
      · simp only [levelIncluded, hs]
        rcases hmem with rfl | rfl | rfl <;> simp
      · simp [isString, hd]
  · intro xs x s hs h1 h2 h3 hmem
    simp only [arrFilter] at hmem
    have := (List.mem_filter.mp hmem).2
    rw [hrej x s hs h1 h2 h3] at this
    cases this

/-- Claim C4 witness: the guard accepts a `moderate` segment and rejects the same
    segment with level `extreme`. -/
theorem C4_traffic_level_witness :
    isTrafficSegment (segLevel "moderate") = true ∧
    isTrafficSegment (segLevel "extreme") = false :=
  ⟨(C4_traffic_level.1 (segLevel "moderate")).mpr
      ⟨rfl, ⟨[coordJ 20 85, coordJ 21 86], rfl, by decide⟩,
        ⟨"moderate", rfl, Or.inr (Or.inl rfl)⟩, ⟨"jam", rfl⟩⟩,
    C4_traffic_level.2.1 (segLevel "extreme") "extreme" rfl
      (by decide) (by decide) (by decide)⟩

/-- Every step in any successful steps-stage output has a non-empty path. -/
theorem stepsStage_path_pos (pj : JsonVal) (ys : List SanStep)
    (h : stepsStage pj = .ok ys) : ∀ st ∈ ys, 0 < st.path.length := by
  unfold stepsStage at h
  cases hft : getFieldT pj "steps" with
  | error e =>
      cases e
      rw [hft, exBindErr] at h
      exact Except.noConfusion h
  | ok f =>
      simp only [hft, exBind] at h
      cases f with
      | none =>
          rw [exPure] at h
          injection h with h2
          subst h2
          simp
      | some w =>
          cases w with
          | arr xs =>
              dsimp only at h
              cases hm : mapME sanStepE xs with
              | error e =>
                  cases e
                  rw [hm, exBindErr] at h
                  exact Except.noConfusion h
              | ok ms =>
                  simp only [hm, exBind, exPure] at h
                  injection h with h2
                  subst h2
                  intro st hst
                  simpa using (List.mem_filter.mp hst).2
          | null => rw [exPure] at h; injection h with h2; subst h2; simp
          | bool b => rw [exPure] at h; injection h with h2; subst h2; simp
          | num q => rw [exPure] at h; injection h with h2; subst h2; simp
          | nan => rw [exPure] at h; injection h with h2; subst h2; simp
          | str s => rw [exPure] at h; injection h with h2; subst h2; simp
          | obj fs => rw [exPure] at h; injection h with h2; subst h2; simp

/-- Every segment in any successful traffic-stage output has a path of at least
    two validated coordinates. -/
theorem trafficStage_path_gt1 (pj : JsonVal) (ys : List SanTraffic)
    (h : trafficStage pj = .ok ys) : ∀ t ∈ ys, 1 < t.path.length := by
  unfold trafficStage at h
  cases hft : getFieldT pj "traffic" with
  | error e =>
      cases e
      rw [hft, exBindErr] at h
      exact Except.noConfusion h
  | ok f =>
      simp only [hft, exBind] at h
      cases f with
      | none =>
          rw [exPure] at h
          injection h with h2
          subst h2
          simp
      | some w =>
          cases w with
          | arr xs =>
              dsimp only at h
              cases hm : mapME sanTrafficE xs with
              | error e =>
                  cases e
                  rw [hm, exBindErr] at h
                  exact Except.noConfusion h
              | ok ms =>
                  simp only [hm, exBind, exPure] at h
                  injection h with h2
                  subst h2
                  intro t ht
                  simpa using (List.mem_filter.mp ht).2
          | null => rw [exPure] at h; injection h with h2; subst h2; simp
          | bool b => rw [exPure] at h; injection h with h2; subst h2; simp
          | num q => rw [exPure] at h; injection h with h2; subst h2; simp
          | nan => rw [exPure] at h; injection h with h2; subst h2; simp
          | str s => rw [exPure] at h; injection h with h2; subst h2; simp
          | obj fs => rw [exPure] at h; injection h with h2; subst h2; simp

/-- Claim C5, amended (the part of the claim about the strict sanitizer is
    exactly true; the lenient guard `isRouteStep` does not drop an empty path —
    see the counterexample).  In the part_011 sanitizer: every step in the
    sanitized result has at least one (valid) coordinate in its path; a
    candidate whose `path` array yields no valid coordinate — in particular an
    empty path or an all-invalid path — sanitizes to an empty path and is
    dropped from the output. -/
theorem C5_step_dropping :
    (∀ pj ys, stepsStage pj = .ok ys → ∀ st ∈ ys, 0 < st.path.length) ∧
    (∀ (s : JsonVal) (ps : List JsonVal), getF s "path" = some (.arr ps) →
        ((sanStepT s).path = [] ↔
          ∀ p ∈ ps, validateCoord (chainF (some p) "lat") (chainF (some p) "lng") = none)) ∧
    (∀ pj xs ys, pj ≠ JsonVal.null → getF pj "steps" = some (.arr xs) →
        (∀ x ∈ xs, x ≠ JsonVal.null) → stepsStage pj = .ok ys →
        ∀ s ∈ xs, (sanStepT s).path = [] → sanStepT s ∉ ys) := by
  refine ⟨stepsStage_path_pos, ?_, ?_⟩
  · intro s ps hps
    simp [sanStepT, sanPath, hps, List.filterMap_eq_nil_iff]
  · intro pj xs ys hpj hf hnn hok s hs hempty hmem
    have := stepsStage_path_pos pj ys hok (sanStepT s) hmem
    rw [hempty] at this
    simp at this

/-- A route-step candidate whose path is the empty array. -/
def emptyPathStep : JsonVal :=
  .obj [("description", .str "x"), ("path", .arr [])]

/-- A traffic-segment candidate whose path has exactly one valid coordinate. -/
def oneCoordSeg : JsonVal :=
  .obj [("path", .arr [coordJ 20 85]), ("description", .str "d"), ("level", .str "heavy")]

/-- A route-step candidate whose path has exactly one valid coordinate. -/
def oneCoordStep : JsonVal :=
  .obj [("description", .str "s"), ("path", .arr [coordJ 20 85])]

/-- Claim C10.  In the strict route sanitizer the keep thresholds differ by
    shape: a traffic segment appears in the output only with at least two valid
    coordinates in its sanitized path — one with exactly one valid coordinate is
    dropped — while a route step is kept exactly when its sanitized path has at
    least one valid coordinate. -/
theorem C10_path_thresholds :
    (∀ pj ys, trafficStage pj = .ok ys → ∀ t ∈ ys, 1 < t.path.length) ∧
    (∀ pj ys, trafficStage pj = .ok ys →
        ∀ t : JsonVal, (sanTrafficT t).path.length = 1 → sanTrafficT t ∉ ys) ∧
    (∀ pj xs, pj ≠ JsonVal.null → getF pj "steps" = some (.arr xs) →
        (∀ x ∈ xs, x ≠ JsonVal.null) → ∀ ys, stepsStage pj = .ok ys →
        ∀ s ∈ xs, 0 < (sanStepT s).path.length → sanStepT s ∈ ys) ∧
    (∀ pj xs, pj ≠ JsonVal.null → getF pj "traffic" = some (.arr xs) →
        (∀ x ∈ xs, x ≠ JsonVal.null) → ∀ ys, trafficStage pj = .ok ys →
        ∀ t ∈ xs, 1 < (sanTrafficT t).path.length → sanTrafficT t ∈ ys) := by
  refine ⟨trafficStage_path_gt1, ?_, ?_, ?_⟩
  · intro pj ys hok t hlen hmem
    have := trafficStage_path_gt1 pj ys hok (sanTrafficT t) hmem
    omega
  · intro pj xs hpj hf hnn ys hok s hs hpos
    rw [stepsStage_eq pj xs hpj hf hnn] at hok
    injection hok with h2
    subst h2
    exact List.mem_filter.mpr ⟨List.mem_map_of_mem sanStepT hs, by simpa using hpos⟩
  · intro pj xs hpj hf hnn ys hok t ht hpos
    rw [trafficStage_eq pj xs hpj hf hnn] at hok
    injection hok with h2
    subst h2
    exact List.mem_filter.mpr ⟨List.mem_map_of_mem sanTrafficT ht, by simpa using hpos⟩

/-- Claim C10 witness: a one-coordinate traffic segment is absent from its
    batch's output while a one-coordinate route step is present in its batch's
    output. -/
theorem C10_path_thresholds_witness :
    sanTrafficT oneCoordSeg ∉ ([] : List SanTraffic) ∧
    SanStep.mk (JsonVal.str "s") [((20 : ℚ), (85 : ℚ))] ∈
      [SanStep.mk (JsonVal.str "s") [((20 : ℚ), (85 : ℚ))]] :=
  ⟨C10_path_thresholds.2.1 (JsonVal.obj [("traffic", JsonVal.arr [oneCoordSeg])])
      [] (by rfl) oneCoordSeg (by rfl),
    C10_path_thresholds.2.2.1 (JsonVal.obj [("steps", JsonVal.arr [oneCoordStep])])
      [oneCoordStep] (fun h => JsonVal.noConfusion h) (by rfl)
      (fun x hx => by
        rcases List.mem_singleton.mp hx with rfl
        exact fun h => JsonVal.noConfusion h)
      [SanStep.mk (JsonVal.str "s") [(20, 85)]] (by rfl) oneCoordStep (by simp)
      (by decide)⟩

/-- Claim C5 witness: the sanitizer keeps a one-coordinate step (its sanitized
    path is non-empty) and gives the empty-path candidate an empty sanitized
    path. -/
theorem C5_step_dropping_witness :
    (0 : ℕ) < (SanStep.mk (JsonVal.str "go") [((20 : ℚ), (85 : ℚ))]).path.length ∧
    (sanStepT emptyPathStep).path = [] :=
  ⟨C5_step_dropping.1 (JsonVal.obj [("steps", JsonVal.arr [stepGo])])
      [SanStep.mk (JsonVal.str "go") [(20, 85)]] (by rfl)
      (SanStep.mk (JsonVal.str "go") [(20, 85)]) (by simp),
    (C5_step_dropping.2.1 emptyPathStep [] (by rfl)).mpr (by simp)⟩

/-- Claim C5 counterexample: the lenient guard `isRouteStep` accepts a step whose
    path is empty (its `every` is vacuous), so the guard-filter pipeline keeps a
    step with no valid coordinate in the sanitized output. -/
theorem C5_counterexample :
    isRouteStep emptyPathStep = true ∧
    arrFilter isRouteStep (some (.arr [emptyPathStep])) = [emptyPathStep] ∧
    (sanStepT emptyPathStep).path = [] := by
  refine ⟨by rfl, by rfl, by rfl⟩

/-- Membership in an insertion. -/
theorem mem_insertBySeq {α : Type} (key : α → ℚ) (x a : α) (l : List α) :
    a ∈ insertBySeq key x l ↔ a = x ∨ a ∈ l := by
  induction l with
  | nil => simp [insertBySeq]
  | cons y ys ih =>
      by_cases hc : key y < key x
      · simp only [insertBySeq, hc, if_true, List.mem_cons, ih]
        tauto
      · simp only [insertBySeq, hc, if_false, List.mem_cons]

/-- Inserting is a permutation with consing. -/
theorem perm_insertBySeq {α : Type} (key : α → ℚ) (x : α) (l : List α) :
    List.Perm (insertBySeq key x l) (x :: l) := by
  induction l with
  | nil => exact List.Perm.refl _
  | cons y ys ih =>
      by_cases hc : key y < key x
      · simp only [insertBySeq, hc, if_true]
        exact (List.Perm.cons y ih).trans (List.Perm.swap x y ys)
      · simp only [insertBySeq, hc, if_false]
        exact List.Perm.refl _

/-- The insertion sort permutes its input. -/
theorem sortBySeq_perm {α : Type} (key : α → ℚ) (l : List α) :
    List.Perm (sortBySeq key l) l := by
  induction l with
  | nil => exact List.Perm.refl _
  | cons x xs ih =>
      exact (perm_insertBySeq key x (sortBySeq key xs)).trans (List.Perm.cons x ih)

/-- Inserting preserves sortedness. -/
theorem pairwise_insertBySeq {α : Type} (key : α → ℚ) (x : α) (l : List α)
    (h : List.Pairwise (fun a b => key a ≤ key b) l) :
    List.Pairwise (fun a b => key a ≤ key b) (insertBySeq key x l) := by
  induction l with
  | nil => simp [insertBySeq]
  | cons y ys ih =>
      rcases List.pairwise_cons.mp h with ⟨hy, hys⟩
      by_cases hc : key y < key x
      · simp only [insertBySeq, hc, if_true]
        refine List.pairwise_cons.mpr ⟨?_, ih hys⟩
        intro a ha
        rcases (mem_insertBySeq key x a ys).mp ha with rfl | ha2
        · exact le_of_lt hc
        · exact hy a ha2
      · simp only [insertBySeq, hc, if_false]
        refine List.pairwise_cons.mpr ⟨?_, h⟩
        intro a ha
        rcases List.mem_cons.mp ha with rfl | ha2
        · exact le_of_not_lt hc
        · exact le_trans (le_of_not_lt hc) (hy a ha2)

/-- The insertion sort sorts ascending by the key. -/
theorem sortBySeq_pairwise {α : Type} (key : α → ℚ) (l : List α) :
    List.Pairwise (fun a b => key a ≤ key b) (sortBySeq key l) := by
  induction l with
  | nil => simp [sortBySeq]
  | cons x xs ih => exact pairwise_insertBySeq key x (sortBySeq key xs) ih

/-- Filtering one key class through an insertion: the inserted element, when it
    has the key, goes exactly to the front of the class. -/
theorem filter_insertBySeq {α : Type} (key : α → ℚ) (x : α) (l : List α) (k : ℚ)
    (hs : List.Pairwise (fun a b => key a ≤ key b) l) :
    (insertBySeq key x l).filter (fun a => decide (key a = k)) =
      if key x = k then x :: l.filter (fun a => decide (key a = k))
      else l.filter (fun a => decide (key a = k)) := by
  induction l with
  | nil => by_cases h : key x = k <;> simp [insertBySeq, h]
  | cons y ys ih =>
      rcases List.pairwise_cons.mp hs with ⟨hy, hys⟩
      by_cases hc : key y < key x
      · have hstep : insertBySeq key x (y :: ys) = y :: insertBySeq key x ys := by
          simp [insertBySeq, hc]
        rw [hstep, List.filter_cons, ih hys]
        by_cases hxk : key x = k
        · have hyk : ¬ key y = k := by
            intro e
            rw [e, ← hxk] at hc
            exact absurd hc (lt_irrefl _)
          simp [hxk, hyk, List.filter_cons]
        · simp [hxk, List.filter_cons]
      · have hstep : insertBySeq key x (y :: ys) = x :: y :: ys := by
          simp [insertBySeq, hc]
        rw [hstep, List.filter_cons]
        by_cases hxk : key x = k <;> simp [hxk]

/-- Stability: sorting does not reorder any single key class. -/
theorem sortBySeq_stable {α : Type} (key : α → ℚ) (l : List α) (k : ℚ) :
    (sortBySeq key l).filter (fun a => decide (key a = k)) =
      l.filter (fun a => decide (key a = k)) := by
  induction l with
  | nil => rfl
  | cons x xs ih =>
      simp only [sortBySeq]
      rw [filter_insertBySeq key x (sortBySeq key xs) k (sortBySeq_pairwise key xs)]
      by_cases hxk : key x = k <;> simp [List.filter_cons, hxk, ih]

/-- A named itinerary location with a given sequence number. -/
def mkLoc (nm : String) (sq : ℚ) : ItinLoc :=
  ⟨.str nm, .null, 20, 85, none, none, some sq⟩

/-- A named itinerary location with no sequence number. -/
def mkLocNone (nm : String) : ItinLoc :=
  ⟨.str nm, .null, 20, 85, none, none, none⟩

/-- Claim C6.  The itinerary sort orders ascending by the key `sequence || 0`
    (absent sequence counts as zero), permutes its input, and is stable (each
    key class keeps its input order); on sequence values `[3, 1, 2]` the output
    order is `1, 2, 3`, and two locations with absent sequence keep their
    relative order. -/
theorem C6_sequence_sort :
    (∀ l : List ItinLoc,
        List.Pairwise (fun a b => seqKey a ≤ seqKey b) (sortBySeq seqKey l)) ∧
    (∀ l : List ItinLoc, List.Perm (sortBySeq seqKey l) l) ∧
    (∀ (l : List ItinLoc) (k : ℚ),
        (sortBySeq seqKey l).filter (fun a => decide (seqKey a = k)) =
          l.filter (fun a => decide (seqKey a = k))) ∧
    sortBySeq seqKey [mkLoc "a" 3, mkLoc "b" 1, mkLoc "c" 2] =
      [mkLoc "b" 1, mkLoc "c" 2, mkLoc "a" 3] ∧
    sortBySeq seqKey [mkLocNone "p", mkLocNone "q"] =
      [mkLocNone "p", mkLocNone "q"] ∧
    (∀ l : List JsonVal,
        (sortBySeq seqKey003 l).filter (fun a => decide (seqKey003 a = 0)) =
          l.filter (fun a => decide (seqKey003 a = 0))) :=
  ⟨sortBySeq_pairwise seqKey, sortBySeq_perm seqKey, sortBySeq_stable seqKey,
    by rfl, by rfl, fun l => sortBySeq_stable seqKey003 l 0⟩

/-- Lookup skips a prefix none of whose keys match. -/
theorem getProp_append (l1 l2 : List (String × JsonVal)) (k : String)
    (h : ∀ e ∈ l1, e.1 ≠ k) : getProp (l1 ++ l2) k = getProp l2 k := by
  induction l1 with
  | nil => rfl
  | cons e t ih =>
      obtain ⟨a, b⟩ := e
      simp only [List.cons_append, getProp]
      rw [if_neg (h (a, b) (List.mem_cons_self (a, b) t))]
      exact ih (fun x hx => h x (List.mem_cons_of_mem (a, b) hx))

/-- Every entry of an optional field has that field's key. -/
theorem mem_optField (k : String) (v : Option JsonVal) (e : String × JsonVal)
    (h : e ∈ optField k v) : e.1 = k := by
  cases v with
  | none => simp [optField] at h
  | some x =>
      simp only [optField, List.mem_singleton] at h
      rw [h]

/-- A `location` function-call argument object with valid name, description and
    coordinates and no `time`/`duration`/`sequence`. -/
def locArgs : JsonVal :=
  .obj [("name", .str "Clinic"), ("description", .str "visit"),
    ("lat", .num 20), ("lng", .num 85)]

/-- Claim C7, amended.  The guard `isItineraryLocation` does accept a candidate
    whose `time`, `duration` and `sequence` are absent when `name`/`description`
    are text and `lat`/`lng` are numbers, and the part_011 itinerary pipeline
    keeps such a location, ordering it as sequence `0`.  The part_003 pipeline,
    however, coerces the missing `sequence` with `Number(undefined) = NaN` before
    validating, so its constructed candidate fails the guard and the location is
    dropped there (see the counterexample). -/
theorem C7_optional_sequence :
    (∀ x : JsonVal, truthy x = true →
        isString (getF x "name") = true → isString (getF x "description") = true →
        isNumber (getF x "lat") = true → isNumber (getF x "lng") = true →
        getF x "time" = none → getF x "duration" = none → getF x "sequence" = none →
        isItineraryLocation x = true) ∧
    (∀ (args : JsonVal) (c : ℚ × ℚ), getF args "sequence" = none →
        validateCoord (getF args "lat") (getF args "lng") = some c →
        ∃ loc, locStep011 args = some loc ∧ loc.sequence = some 0 ∧
          loc.lat = c.1 ∧ loc.lng = c.2) ∧
    (∀ args : JsonVal, getF args "sequence" = none →
        getF (potentialLoc args) "sequence" = some JsonVal.nan ∧
        isItineraryLocation (potentialLoc args) = false) := by
  refine ⟨?_, ?_, ?_⟩
  · intro x ht hn hd ha hb htm hdu hsq
    simp [isItineraryLocation, ht, hn, hd, ha, hb, htm, hdu, hsq, undefOr]
  · intro args c hsq hc
    obtain ⟨a, b⟩ := c
    refine ⟨ItinLoc.mk (jsOr (getF args "name") (.str "Location"))
        (jsOr (getF args "description") (.str "")) a b
        (getF args "time") (getF args "duration")
        (some (orZero (validateNumber (getF args "sequence")))), ?_, ?_, rfl, rfl⟩
    · simp only [locStep011, hc]
    · simp [validateNumber, hsq, jsToNumber, orZero]
  · intro args hsq
    have hseq : getF (potentialLoc args) "sequence" = some JsonVal.nan := by
      show getProp _ "sequence" = some JsonVal.nan
      rw [getProp_append _ _ _ (fun e he => by
        simp only [List.mem_append] at he
        rcases he with ((((h1 | h2) | h3) | h4) | h5)
        · rw [mem_optField _ _ _ h1]; decide
        · rw [mem_optField _ _ _ h2]; decide
        · rcases List.mem_cons.mp h3 with h3 | h3
          · rw [h3]; show ("lat" : String) ≠ "sequence"; decide
          · rw [List.mem_singleton] at h3; rw [h3]
            show ("lng" : String) ≠ "sequence"; decide
        · rw [mem_optField _ _ _ h4]; decide
        · rw [mem_optField _ _ _ h5]; decide)]
      rw [hsq]
      rfl
    refine ⟨hseq, ?_⟩
    simp [isItineraryLocation, hseq, undefOr, isNumber]

/-- Claim C7 witness: the guard accepts the sequence-less `locArgs`, and the
    part_011 pipeline keeps it at sequence `0`. -/
theorem C7_optional_sequence_witness :
    isItineraryLocation locArgs = true ∧
    (∃ loc, locStep011 locArgs = some loc ∧ loc.sequence = some 0 ∧
      loc.lat = ((20 : ℚ), (85 : ℚ)).1 ∧ loc.lng = ((20 : ℚ), (85 : ℚ)).2) ∧
    getF (potentialLoc locArgs) "sequence" = some JsonVal.nan :=
  ⟨C7_optional_sequence.1 locArgs rfl rfl rfl rfl rfl rfl rfl rfl,
    C7_optional_sequence.2.1 locArgs (20, 85) rfl (by decide),
    (C7_optional_sequence.2.2 locArgs rfl).1⟩

/-- Claim C7 counterexample: `locArgs` itself satisfies the guard, but the
    part_003 pipeline turns its missing `sequence` into `NaN`, so its candidate
    fails the guard and the location is dropped — while the part_011 pipeline
    keeps it with sequence `0`. -/
theorem C7_counterexample :
    isItineraryLocation locArgs = true ∧
    isItineraryLocation (potentialLoc locArgs) = false ∧
    locStep003 locArgs = none ∧
    locStep011 locArgs =
      some (ItinLoc.mk (.str "Clinic") (.str "visit") 20 85 none none (some 0)) := by
  refine ⟨by rfl, by rfl, by rfl, by rfl⟩

/-! ### Re-validation helpers (claim C8)

Feeding the part_011 sanitizer's own output back through it requires re-encoding
the sanitized records as parsed values; `injectStep` and friends do that encoding
field-for-field. -/

/-- A sanitized coordinate back as a record. -/
def coordToJson (c : ℚ × ℚ) : JsonVal :=
  .obj [("lat", .num c.1), ("lng", .num c.2)]

/-- A sanitized step back as a record. -/
def injectStep (st : SanStep) : JsonVal :=
  .obj [("description", st.description), ("path", .arr (st.path.map coordToJson))]

/-- A sanitized landmark back as a record. -/
def injectLandmark (lm : SanLandmark) : JsonVal :=
  .obj [("name", lm.name), ("position", coordToJson lm.position)]

/-- A sanitized traffic segment back as a record. -/
def injectTraffic (t : SanTraffic) : JsonVal :=
  .obj [("level", t.level), ("description", t.description),
    ("path", .arr (t.path.map coordToJson))]

/-- A validated coordinate is in bounds. -/
theorem validateCoord_bounds (u v : Option JsonVal) (c : ℚ × ℚ)
    (h : validateCoord u v = some c) : |c.1| ≤ 90 ∧ |c.2| ≤ 180 := by
  unfold validateCoord at h
  cases h1 : validateNumber u with
  | none => rw [h1] at h; cases h
  | some a =>
      cases h2 : validateNumber v with
      | none => rw [h1, h2] at h; cases h
      | some b =>
          rw [h1, h2] at h
          cases hb : (decide (|a| > 90) || decide (|b| > 180)) with
          | true => simp only [hb, if_true] at h; cases h
          | false =>
              simp only [hb, Bool.false_eq_true, if_false, Option.some.injEq] at h
              subst h
              have h3 := Bool.or_eq_false_iff.mp hb
              exact ⟨le_of_not_lt (by simpa using h3.1),
                le_of_not_lt (by simpa using h3.2)⟩

/-- `validateCoord` accepts an in-bounds numeric pair unchanged. -/
theorem validateCoord_num (a b : ℚ) (h90 : |a| ≤ 90) (h180 : |b| ≤ 180) :
    validateCoord (some (.num a)) (some (.num b)) = some (a, b) := by
  have h1 : (decide (|a| > 90) || decide (|b| > 180)) = false := by
    simp [not_lt.mpr h90, not_lt.mpr h180]
  simp [validateCoord, validateNumber, jsToNumber, toNumber, h1]

/-- Sanitizing a re-encoded in-bounds path returns it unchanged. -/
theorem sanPath_inject (path : List (ℚ × ℚ))
    (h : ∀ c ∈ path, |c.1| ≤ 90 ∧ |c.2| ≤ 180) :
    sanPath (some (.arr (path.map coordToJson))) = path := by
  induction path with
  | nil => rfl
  | cons c t ih =>
      have hc := h c (List.mem_cons_self c t)
      have ih2 := ih (fun x hx => h x (List.mem_cons_of_mem c hx))
      show List.filterMap
          (fun p => validateCoord (chainF (some p) "lat") (chainF (some p) "lng"))
          (coordToJson c :: t.map coordToJson) = c :: t
      rw [List.filterMap_cons]
      have hf : validateCoord (chainF (some (coordToJson c)) "lat")
          (chainF (some (coordToJson c)) "lng") = some c := by
        have h0 := validateCoord_num c.1 c.2 hc.1 hc.2
        exact h0
      rw [hf]
      exact congrArg (List.cons c) ih2

/-- Every coordinate a sanitized path holds is in bounds. -/
theorem sanPath_bounds (pv : Option JsonVal) :
    ∀ c ∈ sanPath pv, |c.1| ≤ 90 ∧ |c.2| ≤ 180 := by
  intro c hc
  cases pv with
  | none => simp [sanPath] at hc
  | some w =>
      cases w with
      | arr ps =>
          simp only [sanPath, List.mem_filterMap] at hc
          obtain ⟨p, _, hv⟩ := hc
          exact validateCoord_bounds _ _ _ hv
      | null => simp [sanPath] at hc
      | bool b => simp [sanPath] at hc
      | num q => simp [sanPath] at hc
      | nan => simp [sanPath] at hc
      | str s => simp [sanPath] at hc
      | obj fs => simp [sanPath] at hc

/-- `x || d` is truthy whenever the default is. -/
theorem truthy_jsOr (v : Option JsonVal) (d : JsonVal) (hd : truthy d = true) :
    truthy (jsOr v d) = true := by
  cases v with
  | none => simpa [jsOr] using hd
  | some x => by_cases hx : truthy x <;> simp [jsOr, hx, hd]

/-- Every element of a successful monadic map comes from applying the body. -/
theorem mapME_ok_mem {α : Type} (f : JsonVal → Except Unit α) (xs : List JsonVal)
    (ms : List α) (h : mapME f xs = .ok ms) :
    ∀ y ∈ ms, ∃ x ∈ xs, f x = .ok y := by
  induction xs generalizing ms with
  | nil =>
      rw [show mapME f [] = pure [] from rfl, exPure] at h
      injection h with h2
      subst h2
      simp
  | cons x t ih =>
      unfold mapME at h
      cases hfx : f x with
      | error e =>
          cases e
          rw [hfx, exBindErr] at h
          exact Except.noConfusion h
      | ok y0 =>
          simp only [hfx, exBind] at h
          cases hmt : mapME f t with
          | error e =>
              cases e
              rw [hmt, exBindErr] at h
              exact Except.noConfusion h
          | ok ms0 =>
              simp only [hmt, exBind, exPure] at h
              injection h with h2
              subst h2
              intro y hy
              rcases List.mem_cons.mp hy with rfl | hy2
              · exact ⟨x, List.mem_cons_self x t, hfx⟩
              · obtain ⟨x2, hx2, hfx2⟩ := ih ms0 hmt y hy2
                exact ⟨x2, List.mem_cons_of_mem x hx2, hfx2⟩

/-- Mapping a function that fixes every element of a list is the identity. -/
theorem map_id_on {α : Type} (f : α → α) (l : List α) (h : ∀ x ∈ l, f x = x) :
    l.map f = l := by
  induction l with
  | nil => rfl
  | cons x t ih =>
      simp [h x (List.mem_cons_self x t),
        ih (fun y hy => h y (List.mem_cons_of_mem x hy))]

/-- Filter-mapping a function that keeps every element unchanged is the identity. -/
theorem filterMap_id_on {α : Type} (f : α → Option α) (l : List α)
    (h : ∀ x ∈ l, f x = some x) : l.filterMap f = l := by
  induction l with
  | nil => rfl
  | cons x t ih =>
      simp [List.filterMap_cons, h x (List.mem_cons_self x t),
        ih (fun y hy => h y (List.mem_cons_of_mem x hy))]

/-- A successful steps stage yields either the default empty list or a mapped and
    filtered candidate array. -/
theorem stepsStage_ok_shape (pj : JsonVal) (ys : List SanStep)
    (h : stepsStage pj = .ok ys) :
    ys = [] ∨ ∃ xs ms, mapME sanStepE xs = .ok ms ∧
      ys = ms.filter (fun st => st.path.length > 0) := by
  unfold stepsStage at h
  cases hft : getFieldT pj "steps" with
  | error e => cases e; rw [hft, exBindErr] at h; exact Except.noConfusion h
  | ok f =>
      simp only [hft, exBind] at h
      cases f with
      | none => rw [exPure] at h; injection h with h2; exact Or.inl h2.symm
      | some w =>
          cases w with
          | arr xs =>
              dsimp only at h
              cases hm : mapME sanStepE xs with
              | error e => cases e; rw [hm, exBindErr] at h; exact Except.noConfusion h
              | ok ms =>
                  simp only [hm, exBind, exPure] at h
                  injection h with h2
                  exact Or.inr ⟨xs, ms, hm, h2.symm⟩
          | null => rw [exPure] at h; injection h with h2; exact Or.inl h2.symm
          | bool b => rw [exPure] at h; injection h with h2; exact Or.inl h2.symm
          | num q => rw [exPure] at h; injection h with h2; exact Or.inl h2.symm
          | nan => rw [exPure] at h; injection h with h2; exact Or.inl h2.symm
          | str s => rw [exPure] at h; injection h with h2; exact Or.inl h2.symm
          | obj fs => rw [exPure] at h; injection h with h2; exact Or.inl h2.symm

/-- A successful landmarks stage likewise. -/
theorem landmarksStage_ok_shape (pj : JsonVal) (ys : List SanLandmark)
    (h : landmarksStage pj = .ok ys) :
    ys = [] ∨ ∃ xs ms, mapME sanLandmarkE xs = .ok ms ∧
      ys = ms.filterMap (fun nm =>
        match nm with
        | (n, some pos) => some ⟨n, pos⟩
        | (_, none) => none) := by
  unfold landmarksStage at h
  cases hft : getFieldT pj "landmarks" with
  | error e => cases e; rw [hft, exBindErr] at h; exact Except.noConfusion h
  | ok f =>
      simp only [hft, exBind] at h
      cases f with
      | none => rw [exPure] at h; injection h with h2; exact Or.inl h2.symm
      | some w =>
          cases w with
          | arr xs =>
              dsimp only at h
              cases hm : mapME sanLandmarkE xs with
              | error e => cases e; rw [hm, exBindErr] at h; exact Except.noConfusion h
              | ok ms =>
                  simp only [hm, exBind, exPure] at h
                  injection h with h2
                  exact Or.inr ⟨xs, ms, hm, h2.symm⟩
          | null => rw [exPure] at h; injection h with h2; exact Or.inl h2.symm
          | bool b => rw [exPure] at h; injection h with h2; exact Or.inl h2.symm
          | num q => rw [exPure] at h; injection h with h2; exact Or.inl h2.symm
          | nan => rw [exPure] at h; injection h with h2; exact Or.inl h2.symm
          | str s => rw [exPure] at h; injection h with h2; exact Or.inl h2.symm
          | obj fs => rw [exPure] at h; injection h with h2; exact Or.inl h2.symm

/-- A successful traffic stage likewise. -/
theorem trafficStage_ok_shape (pj : JsonVal) (ys : List SanTraffic)
    (h : trafficStage pj = .ok ys) :
    ys = [] ∨ ∃ xs ms, mapME sanTrafficE xs = .ok ms ∧
      ys = ms.filter (fun t => t.path.length > 1) := by
  unfold trafficStage at h
  cases hft : getFieldT pj "traffic" with
  | error e => cases e; rw [hft, exBindErr] at h; exact Except.noConfusion h
  | ok f =>
      simp only [hft, exBind] at h
      cases f with
      | none => rw [exPure] at h; injection h with h2; exact Or.inl h2.symm
      | some w =>
          cases w with
          | arr xs =>
              dsimp only at h
              cases hm : mapME sanTrafficE xs with
              | error e => cases e; rw [hm, exBindErr] at h; exact Except.noConfusion h
              | ok ms =>
                  simp only [hm, exBind, exPure] at h
                  injection h with h2
                  exact Or.inr ⟨xs, ms, hm, h2.symm⟩
          | null => rw [exPure] at h; injection h with h2; exact Or.inl h2.symm
          | bool b => rw [exPure] at h; injection h with h2; exact Or.inl h2.symm
          | num q => rw [exPure] at h; injection h with h2; exact Or.inl h2.symm
          | nan => rw [exPure] at h; injection h with h2; exact Or.inl h2.symm
          | str s => rw [exPure] at h; injection h with h2; exact Or.inl h2.symm
          | obj fs => rw [exPure] at h; injection h with h2; exact Or.inl h2.symm

/-- Every step the steps stage outputs has a truthy description and an in-bounds
    path. -/
theorem stepsStage_good (pj : JsonVal) (ys : List SanStep)
    (h : stepsStage pj = .ok ys) :
    ∀ st ∈ ys, truthy st.description = true ∧
      ∀ c ∈ st.path, |c.1| ≤ 90 ∧ |c.2| ≤ 180 := by
  intro st hst
  rcases stepsStage_ok_shape pj ys h with rfl | ⟨xs, ms, hm, rfl⟩
  · simp at hst
  · have hms := (List.mem_filter.mp hst).1
    obtain ⟨x, _, hfx⟩ := mapME_ok_mem _ _ _ hm st hms
    have hxn : x ≠ JsonVal.null := by
      intro he
      subst he
      rw [show sanStepE JsonVal.null = .error () from rfl] at hfx
      exact Except.noConfusion hfx
    rw [sanStepE_ok x hxn] at hfx
    injection hfx with h2
    subst h2
    exact ⟨truthy_jsOr _ _ (by decide), fun c hc => sanPath_bounds _ c hc⟩

/-- Every landmark the landmarks stage outputs has a truthy name and an
    in-bounds position. -/
theorem landmarksStage_good (pj : JsonVal) (ys : List SanLandmark)
    (h : landmarksStage pj = .ok ys) :
    ∀ lm ∈ ys, truthy lm.name = true ∧
      |lm.position.1| ≤ 90 ∧ |lm.position.2| ≤ 180 := by
  intro lm hlm
  rcases landmarksStage_ok_shape pj ys h with rfl | ⟨xs, ms, hm, rfl⟩
  · simp at hlm
  · rw [List.mem_filterMap] at hlm
    obtain ⟨nm, hnm, hfn⟩ := hlm
    obtain ⟨x, _, hfx⟩ := mapME_ok_mem _ _ _ hm nm hnm
    have hxn : x ≠ JsonVal.null := by
      intro he
      subst he
      rw [show sanLandmarkE JsonVal.null = .error () from rfl] at hfx
      exact Except.noConfusion hfx
    rw [sanLandmarkE_ok x hxn] at hfx
    injection hfx with h2
    subst h2
    unfold sanLandmarkT at hfn
    cases hv : validateCoord (chainF (getF x "position") "lat")
        (chainF (getF x "position") "lng") with
    | none => rw [hv] at hfn; cases hfn
    | some pos =>
        rw [hv] at hfn
        injection hfn with h3
        subst h3
        exact ⟨truthy_jsOr _ _ (by decide), validateCoord_bounds _ _ _ hv⟩

/-- Every segment the traffic stage outputs has truthy level and description and
    an in-bounds path. -/
theorem trafficStage_good (pj : JsonVal) (ys : List SanTraffic)
    (h : trafficStage pj = .ok ys) :
    ∀ t ∈ ys, truthy t.level = true ∧ truthy t.description = true ∧
      ∀ c ∈ t.path, |c.1| ≤ 90 ∧ |c.2| ≤ 180 := by
  intro t ht
  rcases trafficStage_ok_shape pj ys h with rfl | ⟨xs, ms, hm, rfl⟩
  · simp at ht
  · have hms := (List.mem_filter.mp ht).1
    obtain ⟨x, _, hfx⟩ := mapME_ok_mem _ _ _ hm t hms
    have hxn : x ≠ JsonVal.null := by
      intro he
      subst he
      rw [show sanTrafficE JsonVal.null = .error () from rfl] at hfx
      exact Except.noConfusion hfx
    rw [sanTrafficE_ok x hxn] at hfx
    injection hfx with h2
    subst h2
    exact ⟨truthy_jsOr _ _ (by decide), truthy_jsOr _ _ (by decide),
      fun c hc => sanPath_bounds _ c hc⟩

/-- Re-sanitizing a re-encoded good step returns it unchanged. -/
theorem sanStepT_inject (st : SanStep) (hd : truthy st.description = true)
    (hb : ∀ c ∈ st.path, |c.1| ≤ 90 ∧ |c.2| ≤ 180) :
    sanStepT (injectStep st) = st := by
  obtain ⟨d, p⟩ := st
  show SanStep.mk (jsOr (some d) (.str "Move to next point"))
      (sanPath (some (.arr (p.map coordToJson)))) = SanStep.mk d p
  rw [sanPath_inject p hb]
  simp only [SanStep.mk.injEq, and_true]
  simp [jsOr, hd]

/-- Re-sanitizing a re-encoded good landmark returns it with a defined position. -/
theorem sanLandmarkT_inject (lm : SanLandmark) (hn : truthy lm.name = true)
    (hb : |lm.position.1| ≤ 90 ∧ |lm.position.2| ≤ 180) :
    sanLandmarkT (injectLandmark lm) = (lm.name, some lm.position) := by
  obtain ⟨n, pos⟩ := lm
  show (jsOr (some n) (.str "Landmark"),
      validateCoord (some (.num pos.1)) (some (.num pos.2))) = (n, some pos)
  rw [validateCoord_num pos.1 pos.2 hb.1 hb.2]
  simp [jsOr, hn]

/-- Re-sanitizing a re-encoded good traffic segment returns it unchanged. -/
theorem sanTrafficT_inject (t : SanTraffic) (hl : truthy t.level = true)
    (hd : truthy t.description = true)
    (hb : ∀ c ∈ t.path, |c.1| ≤ 90 ∧ |c.2| ≤ 180) :
    sanTrafficT (injectTraffic t) = t := by
  obtain ⟨lv, d, p⟩ := t
  show SanTraffic.mk (jsOr (some lv) (.str "moderate"))
      (jsOr (some d) (.str "Traffic info"))
      (sanPath (some (.arr (p.map coordToJson)))) = SanTraffic.mk lv d p
  rw [sanPath_inject p hb]
  simp only [SanTraffic.mk.injEq, and_true]
  constructor <;> simp [jsOr, hl, hd]

/-- Feeding the steps stage its own (good) output back yields it unchanged. -/
theorem stepsStage_inject (ys : List SanStep)
    (hg : ∀ st ∈ ys, truthy st.description = true ∧
      (∀ c ∈ st.path, |c.1| ≤ 90 ∧ |c.2| ≤ 180) ∧ 0 < st.path.length) :
    stepsStage (JsonVal.obj [("steps", .arr (ys.map injectStep))]) = .ok ys := by
  have hnn : ∀ x ∈ ys.map injectStep, x ≠ JsonVal.null := by
    intro x hx
    obtain ⟨st, _, rfl⟩ := List.mem_map.mp hx
    exact fun h => JsonVal.noConfusion h
  rw [stepsStage_eq (JsonVal.obj [("steps", .arr (ys.map injectStep))])
      (ys.map injectStep) (fun h => JsonVal.noConfusion h) rfl hnn,
    List.map_map,
    map_id_on (sanStepT ∘ injectStep) ys
      (fun st hst => sanStepT_inject st (hg st hst).1 (hg st hst).2.1),
    List.filter_eq_self.mpr (fun st hst => by simpa using (hg st hst).2.2)]

/-- Feeding the landmarks stage its own (good) output back yields it unchanged. -/
theorem landmarksStage_inject (ys : List SanLandmark)
    (hg : ∀ lm ∈ ys, truthy lm.name = true ∧
      |lm.position.1| ≤ 90 ∧ |lm.position.2| ≤ 180) :
    landmarksStage (JsonVal.obj [("landmarks", .arr (ys.map injectLandmark))]) =
      .ok ys := by
  have hnn : ∀ x ∈ ys.map injectLandmark, x ≠ JsonVal.null := by
    intro x hx
    obtain ⟨lm, _, rfl⟩ := List.mem_map.mp hx
    exact fun h => JsonVal.noConfusion h
  rw [landmarksStage_eq (JsonVal.obj [("landmarks", .arr (ys.map injectLandmark))])
    (ys.map injectLandmark) (fun h => JsonVal.noConfusion h) rfl hnn, List.map_map]
  have hmap : ys.map (sanLandmarkT ∘ injectLandmark) =
      ys.map (fun lm => (lm.name, some lm.position)) := by
    apply List.map_congr_left
    intro lm hlm
    exact sanLandmarkT_inject lm (hg lm hlm).1 (hg lm hlm).2
  rw [hmap, List.filterMap_map]
  have hid : ys.filterMap
      ((fun nm =>
          match nm with
          | (n, some pos) => some (SanLandmark.mk n pos)
          | (_, none) => none) ∘ (fun lm => (lm.name, some lm.position))) = ys := by
    apply filterMap_id_on
    intro lm _
    rfl
  rw [hid]

/-- Feeding the traffic stage its own (good) output back yields it unchanged. -/
theorem trafficStage_inject (ys : List SanTraffic)
    (hg : ∀ t ∈ ys, truthy t.level = true ∧ truthy t.description = true ∧
      (∀ c ∈ t.path, |c.1| ≤ 90 ∧ |c.2| ≤ 180) ∧ 1 < t.path.length) :
    trafficStage (JsonVal.obj [("traffic", .arr (ys.map injectTraffic))]) = .ok ys := by
  have hnn : ∀ x ∈ ys.map injectTraffic, x ≠ JsonVal.null := by
    intro x hx
    obtain ⟨t, _, rfl⟩ := List.mem_map.mp hx
    exact fun h => JsonVal.noConfusion h
  rw [trafficStage_eq (JsonVal.obj [("traffic", .arr (ys.map injectTraffic))])
      (ys.map injectTraffic) (fun h => JsonVal.noConfusion h) rfl hnn, List.map_map,
    map_id_on (sanTrafficT ∘ injectTraffic) ys (fun t ht =>
      sanTrafficT_inject t (hg t ht).1 (hg t ht).2.1 (hg t ht).2.2.1),
    List.filter_eq_self.mpr (fun t ht => by simpa using (hg t ht).2.2.2)]

/-- Claim C8.  Re-validation is idempotent in both pipelines.  The guard-filter
    validator (part_003) filters with a pure predicate, so running it on its own
    output changes nothing.  In the strict sanitizer (part_011), re-encoding any
    stage's own output and running the same stage again reproduces it exactly: no
    record is dropped (descriptions, names and levels the sanitizer emitted are
    truthy, so the defaults do not fire; emitted coordinates are in bounds, so
    `validateCoord` accepts them unchanged; emitted paths meet their length
    thresholds). -/
theorem C8_revalidation_idempotent :
    (∀ (p : JsonVal → Bool) (xs : List JsonVal),
        arrFilter p (some (.arr (arrFilter p (some (.arr xs))))) =
          arrFilter p (some (.arr xs))) ∧
    (∀ pj ys, stepsStage pj = .ok ys →
        stepsStage (JsonVal.obj [("steps", .arr (ys.map injectStep))]) = .ok ys) ∧
    (∀ pj ys, landmarksStage pj = .ok ys →
        landmarksStage (JsonVal.obj [("landmarks", .arr (ys.map injectLandmark))]) =
          .ok ys) ∧
    (∀ pj ys, trafficStage pj = .ok ys →
        trafficStage (JsonVal.obj [("traffic", .arr (ys.map injectTraffic))]) =
          .ok ys) := by
  refine ⟨?_, ?_, ?_, ?_⟩
  · intro p xs
    simp [arrFilter, List.filter_filter]
  · intro pj ys h
    exact stepsStage_inject ys (fun st hst =>
      ⟨(stepsStage_good pj ys h st hst).1, (stepsStage_good pj ys h st hst).2,
        stepsStage_path_pos pj ys h st hst⟩)
  · intro pj ys h
    exact landmarksStage_inject ys (landmarksStage_good pj ys h)
  · intro pj ys h
    exact trafficStage_inject ys (fun t ht =>
      ⟨(trafficStage_good pj ys h t ht).1, (trafficStage_good pj ys h t ht).2.1,
        (trafficStage_good pj ys h t ht).2.2, trafficStage_path_gt1 pj ys h t ht⟩)

/-- Claim C8 witness: re-validating a concrete sanitized batch reproduces it, in
    both pipelines. -/
theorem C8_revalidation_idempotent_witness :
    stepsStage (JsonVal.obj [("steps", JsonVal.arr
        (([SanStep.mk (JsonVal.str "go") [((20 : ℚ), (85 : ℚ))]]).map injectStep))]) =
      .ok [SanStep.mk (JsonVal.str "go") [((20 : ℚ), (85 : ℚ))]] ∧
    arrFilter isRouteStep
        (some (.arr (arrFilter isRouteStep (some (.arr [stepGo, JsonVal.num 7]))))) =
      arrFilter isRouteStep (some (.arr [stepGo, JsonVal.num 7])) :=
  ⟨C8_revalidation_idempotent.2.1 (JsonVal.obj [("steps", JsonVal.arr [stepGo])])
      [SanStep.mk (JsonVal.str "go") [(20, 85)]] (by rfl),
    C8_revalidation_idempotent.1 isRouteStep [stepGo, JsonVal.num 7]⟩

/-- Claim C4 counterexample: the part_011 sanitized output does not drop the
    `extreme` segment — its traffic stage keeps it, level string and all — even
    though the guard rejects it and the part_003 pipeline drops it. -/
theorem C4_counterexample :
    isTrafficSegment (segLevel "extreme") = false ∧
    arrFilter isTrafficSegment (some (.arr [segLevel "extreme"])) = [] ∧
    trafficStage (JsonVal.obj [("traffic", .arr [segLevel "extreme"])]) =
      .ok [SanTraffic.mk (.str "extreme") (.str "jam") [(20, 85), (21, 86)]] := by
  refine ⟨by rfl, by rfl, by rfl⟩

/-- Claim C9.  Every type guard is a total predicate on arbitrary parsed JSON
    values: evaluated with JavaScript property-access exception semantics,
    operand by operand, each guard returns the definite boolean of the total
    model and never throws — the leading truthiness test short-circuits every
    property read that could raise a `TypeError`. -/
theorem C9_guards_total :
    ∀ v : JsonVal,
      isRouteCoordinateE v = .ok (isRouteCoordinate v) ∧
      isRouteStepE v = .ok (isRouteStep v) ∧
      isLandmarkE v = .ok (isLandmark v) ∧
      isTrafficSegmentE v = .ok (isTrafficSegment v) ∧
      isItineraryLocationE v = .ok (isItineraryLocation v) ∧
      isItineraryRouteE v = .ok (isItineraryRoute v) :=
  fun v => ⟨isRouteCoordinateE_ok v, isRouteStepE_ok v, isLandmarkE_ok v,
    isTrafficSegmentE_ok v, isItineraryLocationE_ok v, isItineraryRouteE_ok v⟩

/-- Claim C2 counterexample: in `"A "` + fenced `json` block containing `null` +
    `" B"`, the block exists and its interior parses as JSON (to `null`), yet the
    returned prose is the whole original string, not the string with the block
    removed, and the payload is treated as absent — because `parsedJson.steps`
    throws on `null` and the `catch` reverts the prose. -/
theorem C2_counterexample :
    routeExtract ("A ```json null ``` B").toList =
      some (("null").toList, ("A  B").toList) ∧
    jsonParse ("null").toList = some JsonVal.null ∧
    planRoute003 ("A ```json null ``` B").toList =
      ⟨("A ```json null ``` B").toList, [], [], []⟩ ∧
    ("A ```json null ``` B").toList ≠ ("A  B").toList := by
  refine ⟨by rfl, by rfl, by rfl, by decide⟩

end Navi
